import Mathlib

/-!
Verification of the plus3 disk-image storage engine (a +3DOS / CPC DSK
container library written in Go).  The Go sources are shallowly embedded:
byte buffers become `List Nat` (each entry a byte value), machine-integer
arithmetic is made explicit (`% 256` where the source computes in `uint8`,
`% 65536` for `uint16`, and so on), in-place mutation becomes explicit
state passing, and fallible operations return `Except` or pair the result
with the updated state.  Go errors are represented by the inductive
`GoErr`; each constructor stands for one distinct error value or format
string of the source (the numeric arguments that `fmt.Errorf` interpolates
are carried as payloads where they matter).
-/

set_option maxRecDepth 8000

/-- Errors produced by the diskimg / internal packages.  Each constructor
corresponds to one `errors.New` / `fmt.Errorf` site in the Go source. -/
inductive GoErr where
  /-- internal/sector.go: "track %d out of range" -/
  | trackOutOfRange
  /-- internal/sector.go: "sector %d out of range" -/
  | sectorOutOfRange
  /-- internal/sector.go: "side %d out of range" -/
  | sideOutOfRange
  /-- internal/sector.go + allocation.go: "sector number %d out of range" -/
  | sectorNumOutOfRange
  /-- diskimg.go: "invalid sector data size" -/
  | invalidSectorDataSize
  /-- diskimg.go: "track index out of range" -/
  | trackIndexOutOfRange
  /-- diskimg.go: "sector extends beyond track boundary" -/
  | sectorBeyondTrack
  /-- diskimg.go: "attempting to read unallocated sector" -/
  | readUnallocated
  /-- allocation.go: "sector range out of bounds" -/
  | sectorRangeOutOfBounds
  /-- allocation.go: "sector %d already allocated" -/
  | sectorAlreadyAllocated (i : Nat)
  /-- filealloc.go: "file size exceeds maximum (%d blocks needed, max is %d)" -/
  | fileSizeExceedsMax (needed : Nat)
  /-- filealloc.go: "no free blocks available" -/
  | noFreeBlocks
  /-- filealloc.go: "invalid block number: %d" -/
  | invalidBlockNumber (b : Nat)
  /-- directory.go: "file not found" -/
  | fileNotFound
  /-- directory.go: "file %s already exists" -/
  | fileExists
  /-- directory.go: "directory full" -/
  | directoryFull
  /-- directory.go: "empty filename" -/
  | emptyFilename
  /-- directory.go: "filename too long (max 8 chars)" -/
  | nameTooLong
  /-- directory.go: "extension too long (max 3 chars)" -/
  | extTooLong
  /-- delete.go header code: "data too short for header" -/
  | dataTooShort
  /-- delete.go header code: "invalid PLUS3DOS header signature" -/
  | invalidHeaderSignature
  /-- delete.go header code: "invalid soft-EOF marker" -/
  | invalidSoftEOF
  /-- delete.go header code: "incompatible header issue number: %d" -/
  | incompatibleIssue (n : Nat)
  /-- delete.go header code: "incompatible header version: %d" -/
  | incompatibleVersion (n : Nat)
  /-- delete.go header code: "invalid file type: %d" -/
  | invalidFileType (t : Nat)
  /-- delete.go header code: "header checksum verification failed" -/
  | checksumFailed
  /-- fileio.go: "file is read-only" -/
  | fileReadOnly
  /-- io.EOF, returned by Read/ReadAt at end of stream -/
  | eof
  /-- fileio.go: "negative position" -/
  | negativePosition
  /-- fileio.go: "invalid whence" -/
  | invalidWhence
  /-- fileio.go: "failed to allocate space: %v" wrapping an inner error -/
  | allocFailed (e : GoErr)
  /-- fileio.go Close: "failed to write header: %v" wrapping an inner error -/
  | writeHeaderFailed (e : GoErr)
  /-- models the Go nil-pointer dereference of `f.header` in Close when
  `isHeadered` is set with no header (unreachable for handles built by
  OpenFile) -/
  | nilHeader
  /-- directory_ops.go: "failed to read directory sector %d: %w" -/
  | dirReadFailed (s : Nat)
  /-- directory_ops.go: "failed to parse directory entry %d: %w" (the Go
  struct needs 35 bytes but each slot supplies 32, so `binary.Read`
  reports unexpected EOF) -/
  | dirEntryParseFailed
  deriving DecidableEq

deriving instance DecidableEq for Except

/-! ## internal/sector.go — geometry and addressing -/

/-- `internal.SectorMap`: track/sector mapping parameters for the +3DOS
disk format. -/
structure SectorMap where
  TracksPerSide : Int
  SectorsPerTrack : Int
  SidesPerDisk : Int
  BytesPerSector : Int
  deriving DecidableEq

/-- `internal.NewSectorMap`: the standard +3 parameters. -/
def NewSectorMap : SectorMap :=
  { TracksPerSide := 40, SectorsPerTrack := 9, SidesPerDisk := 1,
    BytesPerSector := 512 }

/-- `SectorMap.LinearToPhysical`: convert a linear sector number to
physical track/sector/side coordinates.  The Go arithmetic runs on
non-negative `int` values (validated first), so it coincides with the
natural-number division and remainder used here. -/
def SectorMap.LinearToPhysical (sm : SectorMap) (linear : Int) :
    Except GoErr (Int × Int × Int) :=
  let maxSectors := sm.TracksPerSide * sm.SectorsPerTrack * sm.SidesPerDisk
  if linear < 0 ∨ linear ≥ maxSectors then
    .error .sectorNumOutOfRange
  else
    let sectorsPerSide := (sm.TracksPerSide * sm.SectorsPerTrack).toNat
    let l := linear.toNat
    let side := l / sectorsPerSide
    let remainder := l % sectorsPerSide
    let track := remainder / sm.SectorsPerTrack.toNat
    let sector := remainder % sm.SectorsPerTrack.toNat
    .ok ((track : Int), (sector : Int), (side : Int))

/-- `SectorMap.PhysicalToLinear`: convert physical track/sector/side
coordinates to a linear sector number. -/
def SectorMap.PhysicalToLinear (sm : SectorMap) (track sector side : Int) :
    Except GoErr Int :=
  if track < 0 ∨ track ≥ sm.TracksPerSide then
    .error .trackOutOfRange
  else if sector < 0 ∨ sector ≥ sm.SectorsPerTrack then
    .error .sectorOutOfRange
  else if side < 0 ∨ side ≥ sm.SidesPerDisk then
    .error .sideOutOfRange
  else
    .ok (side * sm.TracksPerSide * sm.SectorsPerTrack +
      track * sm.SectorsPerTrack + sector)

/-- `SectorMap.GetTrackOffset`: byte offset of the start of a track. -/
def SectorMap.GetTrackOffset (sm : SectorMap) (track side : Int) :
    Except GoErr Int :=
  if track < 0 ∨ track ≥ sm.TracksPerSide then
    .error .trackOutOfRange
  else if side < 0 ∨ side ≥ sm.SidesPerDisk then
    .error .sideOutOfRange
  else
    .ok ((side * sm.TracksPerSide + track) * sm.SectorsPerTrack *
      sm.BytesPerSector)

/-- `SectorMap.GetSectorOffset`: byte offset of a specific sector. -/
def SectorMap.GetSectorOffset (sm : SectorMap) (track sector side : Int) :
    Except GoErr Int :=
  match sm.GetTrackOffset track side with
  | .error e => .error e
  | .ok trackOffset =>
    if sector < 0 ∨ sector ≥ sm.SectorsPerTrack then
      .error .sectorOutOfRange
    else
      .ok (trackOffset + sector * sm.BytesPerSector)

/-! ## pkg/diskimg/allocation.go — the sector allocation bitmap

`SectorAllocation.allocated` is the boolean-per-sector bitmap; operations
that the Go source performs in place are modelled by returning the
updated bitmap alongside an optional error, so an error outcome carries
the (unchanged or partially mutated) state exactly as the source leaves
it.  The source checks the whole range before marking any sector, so on
the error paths of `AllocateSectors` the bitmap is returned untouched. -/

/-- The check loop of `AllocateSectors`: the first sector of
`[start, start+count)` that is already allocated, if any. -/
def firstAllocatedInRange (a : List Bool) (start count : Nat) : Option Nat :=
  match count with
  | 0 => none
  | n + 1 =>
    if a.getD start false then some start
    else firstAllocatedInRange a (start + 1) n

/-- The mark loop of `AllocateSectors`/`FreeSectors`: set every sector of
`[start, start+count)` to `v`. -/
def setRange (a : List Bool) (start count : Nat) (v : Bool) : List Bool :=
  match count with
  | 0 => a
  | n + 1 => setRange (a.set start v) (start + 1) n v

/-- `SectorAllocation.AllocateSectors`: mark a range of sectors as
allocated.  Fails (leaving the bitmap unchanged) if the range is out of
bounds or any sector in it is already allocated.  The Go `start < 0`
branch is unrepresentable with `Nat` indices. -/
def AllocateSectors (a : List Bool) (start count : Nat) :
    Option GoErr × List Bool :=
  if start + count > a.length then
    (some .sectorRangeOutOfBounds, a)
  else
    match firstAllocatedInRange a start count with
    | some i => (some (.sectorAlreadyAllocated i), a)
    | none => (none, setRange a start count true)

/-- `SectorAllocation.FreeSectors`: mark a range of sectors as free. -/
def FreeSectors (a : List Bool) (start count : Nat) :
    Option GoErr × List Bool :=
  if start + count > a.length then
    (some .sectorRangeOutOfBounds, a)
  else
    (none, setRange a start count false)

/-- `SectorAllocation.IsSectorAllocated`. -/
def IsSectorAllocated (a : List Bool) (sector : Nat) :
    Except GoErr Bool :=
  if sector ≥ a.length then
    .error .sectorNumOutOfRange
  else
    .ok (a.getD sector false)

/-- `SectorAllocation.GetFreeSpace`: number of free sectors. -/
def GetFreeSpace (a : List Bool) : Nat :=
  a.countP (fun allocated => !allocated)

/-! ## little-endian byte encoding helpers (encoding/binary, LittleEndian) -/

/-- The four bytes of a `uint32` in little-endian order
(`binary.Write`). -/
def le32Bytes (n : Nat) : List Nat :=
  [n % 256, n / 256 % 256, n / 65536 % 256, n / 16777216 % 256]

/-- Decode a little-endian `uint32` from four bytes (`binary.Read`). -/
def de32 (a b c d : Nat) : Nat :=
  a + 256 * b + 65536 * c + 16777216 * d

/-! ## cmd/delete/delete.go — the 128-byte PLUS3DOS file header -/

/-- Byte values of the string constant `HeaderSignature = "PLUS3DOS"`. -/
def HeaderSignature : List Nat := [80, 76, 85, 83, 51, 68, 79, 83]

def HeaderSoftEOF : Nat := 26

def HeaderSize : Nat := 128

def HeaderVersion : Nat := 1

def HeaderIssue : Nat := 1

def FileTypeProgram : Nat := 0

def FileTypeNumericArray : Nat := 1

def FileTypeCharArray : Nat := 2

def FileTypeCode : Nat := 3

/-- `Plus3DosHeader`: the 128-byte header structure.  Byte-array fields
are byte lists (`Signature` 8 bytes, `HeaderData` 8, `Reserved` 104);
scalar fields are byte / `uint32` values. -/
structure Plus3DosHeader where
  Signature : List Nat
  SoftEOF : Nat
  Issue : Nat
  Version : Nat
  FileLength : Nat
  HeaderData : List Nat
  Reserved : List Nat
  Checksum : Nat
  deriving DecidableEq

/-- `NewPlus3DosHeader`: a header with standard values (remaining Go
fields are zero-valued). -/
def NewPlus3DosHeader : Plus3DosHeader :=
  { Signature := HeaderSignature, SoftEOF := HeaderSoftEOF,
    Issue := HeaderIssue, Version := HeaderVersion, FileLength := 0,
    HeaderData := List.replicate 8 0, Reserved := List.replicate 104 0,
    Checksum := 0 }

/-- `Plus3DosHeader.SetBasicHeader`: store the BASIC-specific header data.
`fileType` is a Go `byte`; `length`, `param1`, `param2` are `uint16`,
stored little-endian (`% 256` / `/ 256 % 256` are the two bytes). -/
def Plus3DosHeader.SetBasicHeader (h : Plus3DosHeader)
    (fileType length param1 param2 : Nat) : Except GoErr Plus3DosHeader :=
  if fileType > FileTypeCode then
    .error (.invalidFileType fileType)
  else
    let hd := ((h.HeaderData.set 0 fileType).set 1 (length % 256)).set 2
      (length / 256 % 256)
    if fileType = FileTypeProgram then
      .ok { h with HeaderData :=
        (((hd.set 3 (param1 % 256)).set 4 (param1 / 256 % 256)).set 5
          (param2 % 256)).set 6 (param2 / 256 % 256) }
    else if fileType = FileTypeNumericArray ∨ fileType = FileTypeCharArray then
      .ok { h with HeaderData := hd.set 3 (param1 % 256) }
    else
      .ok { h with HeaderData :=
        (hd.set 3 (param1 % 256)).set 4 (param1 / 256 % 256) }

/-- `Plus3DosHeader.toBytes`: serialize the header to its 128 bytes
(`binary.Write` field order, little-endian `FileLength`). -/
def Plus3DosHeader.toBytes (h : Plus3DosHeader) : List Nat :=
  h.Signature ++ [h.SoftEOF, h.Issue, h.Version] ++ le32Bytes h.FileLength ++
    h.HeaderData ++ h.Reserved ++ [h.Checksum]

/-- `Plus3DosHeader.UpdateChecksum`: store the sum of serialized bytes
0..126 modulo 256.  The Go accumulator is a `uint16`, which cannot
overflow on 127 byte values, so a plain sum is exact. -/
def Plus3DosHeader.UpdateChecksum (h : Plus3DosHeader) : Plus3DosHeader :=
  { h with Checksum := (h.toBytes.take 127).sum % 256 }

/-- `Plus3DosHeader.verifyChecksum`. -/
def Plus3DosHeader.verifyChecksum (h : Plus3DosHeader) : Bool :=
  (h.toBytes.take 127).sum % 256 == h.Checksum

/-- `Plus3DosHeader.Validate`: signature, soft-EOF, issue/version,
file-type range, and checksum checks, reporting the first failure. -/
def Plus3DosHeader.Validate (h : Plus3DosHeader) : Except GoErr Unit :=
  if h.Signature ≠ HeaderSignature then
    .error .invalidHeaderSignature
  else if h.SoftEOF ≠ HeaderSoftEOF then
    .error .invalidSoftEOF
  else if h.Issue ≠ HeaderIssue then
    .error (.incompatibleIssue h.Issue)
  else if h.Version > HeaderVersion then
    .error (.incompatibleVersion h.Version)
  else if h.HeaderData.getD 0 0 > FileTypeCode then
    .error (.invalidFileType (h.HeaderData.getD 0 0))
  else if ¬ h.verifyChecksum then
    .error .checksumFailed
  else
    .ok ()

/-- `Plus3DosHeader.FromBytes`: parse a header from at least 128 bytes
(`binary.Read` field layout). -/
def Plus3DosHeader.FromBytes (data : List Nat) : Except GoErr Plus3DosHeader :=
  if data.length < HeaderSize then
    .error .dataTooShort
  else
    .ok { Signature := data.take 8,
          SoftEOF := data.getD 8 0,
          Issue := data.getD 9 0,
          Version := data.getD 10 0,
          FileLength := de32 (data.getD 11 0) (data.getD 12 0)
            (data.getD 13 0) (data.getD 14 0),
          HeaderData := (data.drop 15).take 8,
          Reserved := (data.drop 23).take 104,
          Checksum := data.getD 127 0 }

/-! ## pkg/diskimg/directory.go — directory entries -/

/-- `DirectoryEntry` (32 bytes on disk).  `Name` has 8 bytes,
`Extension` 3, `AllocationBlocks` 16; `LogicalSize` is a `uint16`. -/
structure DirectoryEntry where
  Status : Nat
  Name : List Nat
  Extension : List Nat
  Extent : Nat
  Reserved1 : Nat
  Reserved2 : Nat
  RecordCount : Nat
  AllocationBlocks : List Nat
  FirstRecord : Nat
  LogicalSize : Nat
  deriving DecidableEq

/-- The Go zero value of `DirectoryEntry` (as produced by
`make([]DirectoryEntry, n)`). -/
def emptyDirectoryEntry : DirectoryEntry :=
  { Status := 0, Name := List.replicate 8 0, Extension := List.replicate 3 0,
    Extent := 0, Reserved1 := 0, Reserved2 := 0, RecordCount := 0,
    AllocationBlocks := List.replicate 16 0, FirstRecord := 0,
    LogicalSize := 0 }

/-- `DirectoryEntry.IsDeleted`: status byte `0xE5`. -/
def DirectoryEntry.IsDeleted (de : DirectoryEntry) : Bool :=
  de.Status == 229

/-- `DirectoryEntry.IsUnused`: status byte `0x00`. -/
def DirectoryEntry.IsUnused (de : DirectoryEntry) : Bool :=
  de.Status == 0

/-- `strings.TrimRight(s, " ")` on a byte string. -/
def trimRightSpaces (l : List Nat) : List Nat :=
  (l.reverse.dropWhile (fun c => c == 32)).reverse

/-- `strings.ToUpper` on an ASCII byte. -/
def toUpperByte (c : Nat) : Nat :=
  if 97 ≤ c ∧ c ≤ 122 then c - 32 else c

/-- `strings.ToUpper` on a byte string (the sources only handle ASCII
filenames). -/
def toUpperBytes (l : List Nat) : List Nat :=
  l.map toUpperByte

/-- `DirectoryEntry.GetFilename`: trimmed name, plus `"." ++ ext` when the
trimmed extension is nonempty (byte 46 is the dot). -/
def DirectoryEntry.GetFilename (de : DirectoryEntry) : List Nat :=
  let name := trimRightSpaces de.Name
  let ext := trimRightSpaces de.Extension
  if ext ≠ [] then name ++ [46] ++ ext else name

/-- `padRight`: pad a byte string with spaces to the given length
(truncating when already longer). -/
def padRightBytes (l : List Nat) (length : Nat) : List Nat :=
  if l.length ≥ length then l.take length
  else l ++ List.replicate (length - l.length) 32

/-- `NewDirectoryEntry`: build an entry from a filename, splitting on the
first dot, validating the 8/3 length limits, upper-casing and
space-padding.  (`strings.Split` keeps every dot-separated part; the Go
code uses parts 0 and 1.) -/
def NewDirectoryEntry (filename : List Nat) : Except GoErr DirectoryEntry :=
  if filename = [] then
    .error .emptyFilename
  else
    let parts := filename.splitOn 46
    let name := parts.getD 0 []
    let ext := if parts.length > 1 then parts.getD 1 [] else []
    if name.length > 8 then
      .error .nameTooLong
    else if ext.length > 3 then
      .error .extTooLong
    else
      .ok { emptyDirectoryEntry with
            Status := 0,
            Name := padRightBytes (toUpperBytes name) 8,
            Extension := padRightBytes (toUpperBytes ext) 3 }

/-- `Directory.FindFile`: first live entry whose upper-cased filename
matches the upper-cased argument; returns the entry and its index. -/
def FindFile (dir : List DirectoryEntry) (filename : List Nat) :
    Except GoErr (DirectoryEntry × Nat) :=
  let fname := toUpperBytes filename
  match dir.findIdx? (fun e =>
      !e.IsDeleted && !e.IsUnused && toUpperBytes e.GetFilename == fname) with
  | some i => .ok (dir.getD i emptyDirectoryEntry, i)
  | none => .error .fileNotFound

/-- `Directory.AddFile`: fail when a live entry with the name exists, else
place a fresh entry in the first unused-or-deleted slot.  Returns the slot
index and the updated directory. -/
def AddFile (dir : List DirectoryEntry) (filename : List Nat) :
    Except GoErr (Nat × List DirectoryEntry) :=
  match FindFile dir filename with
  | .ok _ => .error .fileExists
  | .error _ =>
    match dir.findIdx? (fun e => e.IsUnused || e.IsDeleted) with
    | none => .error .directoryFull
    | some i =>
      match NewDirectoryEntry filename with
      | .error e => .error e
      | .ok entry => .ok (i, dir.set i entry)

/-! ## pkg/diskimg/fileattr.go — +3DOS file attributes -/

def AttrReadOnly : Nat := 1

def AttrSystem : Nat := 2

def AttrArchived : Nat := 32

def AttrUserF1 : Nat := 64

def AttrUserF2 : Nat := 128

def AttrUserF3 : Nat := 64

def AttrUserF4 : Nat := 128

/-- `FileAttributes`: the +3DOS attribute flags. -/
structure FileAttributes where
  ReadOnly : Bool
  System : Bool
  Archived : Bool
  UserF1 : Bool
  UserF2 : Bool
  UserF3 : Bool
  UserF4 : Bool
  deriving DecidableEq

/-- `FileAttributes.GetTypeAttributes`: type-field attributes as a byte. -/
def FileAttributes.GetTypeAttributes (fa : FileAttributes) : Nat :=
  (if fa.ReadOnly then AttrReadOnly else 0) |||
    (if fa.System then AttrSystem else 0) |||
    (if fa.Archived then AttrArchived else 0)

/-- `FileAttributes.SetTypeAttributes`. -/
def FileAttributes.SetTypeAttributes (fa : FileAttributes) (b : Nat) :
    FileAttributes :=
  { fa with
      ReadOnly := (b &&& AttrReadOnly) != 0,
      System := (b &&& AttrSystem) != 0,
      Archived := (b &&& AttrArchived) != 0 }

/-- `FileAttributes.GetNameAttributes`: the 8 name-attribute bytes (only
f1–f4 are used; f5–f8 stay zero). -/
def FileAttributes.GetNameAttributes (fa : FileAttributes) : List Nat :=
  let attrs := List.replicate 8 0
  let attrs := if fa.UserF1 then attrs.set 0 AttrUserF1 else attrs
  let attrs := if fa.UserF2 then attrs.set 1 AttrUserF2 else attrs
  let attrs := if fa.UserF3 then attrs.set 2 AttrUserF3 else attrs
  if fa.UserF4 then attrs.set 3 AttrUserF4 else attrs

/-- `FileAttributes.SetNameAttributes` (only f1–f4 are read back). -/
def FileAttributes.SetNameAttributes (fa : FileAttributes)
    (attrs : List Nat) : FileAttributes :=
  { fa with
      UserF1 := (attrs.getD 0 0 &&& AttrUserF1) != 0,
      UserF2 := (attrs.getD 1 0 &&& AttrUserF2) != 0,
      UserF3 := (attrs.getD 2 0 &&& AttrUserF3) != 0,
      UserF4 := (attrs.getD 3 0 &&& AttrUserF4) != 0 }

/-- `FileAttributes.ApplyToDirectoryEntry`: set or clear the high bit of
each extension byte from bit `i` of the type-attribute byte, and of each
name byte from bit 7 of the corresponding name-attribute byte. -/
def FileAttributes.ApplyToDirectoryEntry (fa : FileAttributes)
    (entry : DirectoryEntry) : DirectoryEntry :=
  let typeAttrs := fa.GetTypeAttributes
  let ext := entry.Extension.mapIdx (fun i c =>
    if (typeAttrs &&& (1 <<< i)) != 0 then c ||| 128 else c &&& 127)
  let nameAttrs := fa.GetNameAttributes
  let name := entry.Name.mapIdx (fun i c =>
    if (nameAttrs.getD i 0 &&& 128) != 0 then c ||| 128 else c &&& 127)
  { entry with Extension := ext, Name := name }

/-- `FileAttributes.ReadFromDirectoryEntry`: rebuild the type-attribute
byte from the extension high bits and the name-attribute bytes from the
name high bits, then decode both. -/
def FileAttributes.ReadFromDirectoryEntry (fa : FileAttributes)
    (entry : DirectoryEntry) : FileAttributes :=
  let typeAttrs := (List.range entry.Extension.length).foldl
    (fun acc i =>
      if (entry.Extension.getD i 0 &&& 128) != 0 then acc ||| (1 <<< i)
      else acc) 0
  let nameAttrs := entry.Name.map (fun c =>
    if (c &&& 128) != 0 then 128 else 0)
  (fa.SetTypeAttributes typeAttrs).SetNameAttributes nameAttrs

/-! ## pkg/diskimg — disk constants

`DirectorySector` is defined both as 0 (diskimg.go) and 1 (directory.go),
and `MaxDirectoryEntries` both as 64 (directory.go) and 128
(directory_ops.go); the source tree carries competing duplicates.  We use
0 and 64: 64 entries × 32 bytes = 4 sectors, the only internally
consistent combination with `DirectorySizeInSectors = 4`. -/

def TracksPerSide : Nat := 40

def SectorsPerTrack : Nat := 9

def BytesPerSector : Nat := 512

def SidesPerDisk : Nat := 1

def DiskSizeInBytes : Nat := 184320

def BlockSize : Nat := 1024

def MaxBlocks : Nat := 256

def BlocksPerDir : Nat := 2

def ReservedBlocks : Nat := 1

def MaxDirectoryEntries : Nat := 64

def DirectoryEntrySize : Nat := 32

def DirectoryTrack : Nat := 0

def DirectorySector : Nat := 0

def DirectoryStartSector : Nat := 0

def DirectorySizeInSectors : Nat := 4

/-! ## pkg/diskimg/filealloc.go — block allocation for files

The Go `FileAllocation` holds a pointer to the owning disk's
`SectorAllocation`; here `allocation` is that shared bitmap, threaded
explicitly. -/

structure FileAllocation where
  allocation : List Bool
  blockMap : List Nat
  freeBlocks : List Bool
  deriving DecidableEq

/-- `newFileAllocation`: block map and free list sized from the header
geometry.  The Go `totalBlocks` is computed in `uint8` arithmetic
(`TracksNum * SidesNum * uint8(SectorsPerTrack) / uint8(sectorsPerBlock)`),
so for the standard geometry 40·1·9 = 360 overflows to 104 and yields
only 52 blocks.  Blocks 0 .. ReservedBlocks+BlocksPerDir-1 are marked
used (boot + directory). -/
def newFileAllocation (tracksNum sidesNum : Nat) (allocation : List Bool) :
    FileAllocation :=
  let sectorsPerBlock := BlockSize / BytesPerSector
  let totalBlocks := tracksNum * sidesNum % 256 * SectorsPerTrack % 256 /
    sectorsPerBlock
  { allocation := allocation,
    blockMap := (List.range totalBlocks).map (fun i => i * sectorsPerBlock),
    freeBlocks := (List.range (ReservedBlocks + BlocksPerDir)).foldl
      (fun fb i => fb.set i false) (List.replicate totalBlocks true) }

/-- The scan loop of `findContiguousBlocks` (index, run length and run
start are the loop variables of the source). -/
def findContigAux (l : List Bool) (idx consecutive : Nat)
    (startBlock : Option Nat) (count : Nat) : Option Nat :=
  match l with
  | [] => none
  | free :: rest =>
    if free then
      let s := if consecutive = 0 then some idx else startBlock
      if consecutive + 1 = count then s
      else findContigAux rest (idx + 1) (consecutive + 1) s count
    else findContigAux rest (idx + 1) 0 none count

/-- `FileAllocation.findContiguousBlocks`: first run of `count` free
blocks (`none` models the Go −1 result). -/
def FileAllocation.findContiguousBlocks (fa : FileAllocation) (count : Nat) :
    Option Nat :=
  findContigAux fa.freeBlocks 0 0 none count

def findFreeAux (l : List Bool) (idx : Nat) : Option Nat :=
  match l with
  | [] => none
  | free :: rest => if free then some idx else findFreeAux rest (idx + 1)

/-- `FileAllocation.findFreeBlock`: first free block (`none` for −1). -/
def FileAllocation.findFreeBlock (fa : FileAllocation) : Option Nat :=
  findFreeAux fa.freeBlocks 0

/-- `FileAllocation.FreeBlocks`: release the listed blocks in order,
marking each free and freeing its sectors; an invalid block number or a
`FreeSectors` failure aborts mid-way, leaving earlier releases done. -/
def FileAllocation.FreeBlocks (fa : FileAllocation) (blocks : List Nat) :
    Option GoErr × FileAllocation :=
  match blocks with
  | [] => (none, fa)
  | b :: rest =>
    if b ≥ fa.blockMap.length then
      (some (.invalidBlockNumber b), fa)
    else
      let fb := fa.freeBlocks.set b true
      match FreeSectors fa.allocation (fa.blockMap.getD b 0)
          (BlockSize / BytesPerSector) with
      | (some e, a) => (some e, { fa with freeBlocks := fb, allocation := a })
      | (none, a) =>
        FileAllocation.FreeBlocks { fa with freeBlocks := fb, allocation := a }
          rest

/-- The contiguous-allocation loop of `AllocateFileSpace`: claim
`remaining` blocks starting at `block`, rolling back the blocks collected
in `blocks` when a sector allocation fails (the Go code ignores the error
returned by the rollback `FreeBlocks` call). -/
def contigLoop (fa : FileAllocation) (blocks : List Nat)
    (block remaining : Nat) : Except GoErr (List Nat) × FileAllocation :=
  match remaining with
  | 0 => (.ok blocks, fa)
  | n + 1 =>
    let fb := fa.freeBlocks.set block false
    match AllocateSectors fa.allocation (fa.blockMap.getD block 0)
        (BlockSize / BytesPerSector) with
    | (some e, a) =>
      let fa1 : FileAllocation :=
        { fa with freeBlocks := fb, allocation := a }
      (.error e, (fa1.FreeBlocks blocks).2)
    | (none, a) =>
      contigLoop { fa with freeBlocks := fb, allocation := a }
        (blocks ++ [block]) (block + 1) n

/-- The fragmented-allocation loop of `AllocateFileSpace`. -/
def fragLoop (fa : FileAllocation) (blocks : List Nat) (remaining : Nat) :
    Except GoErr (List Nat) × FileAllocation :=
  match remaining with
  | 0 => (.ok blocks, fa)
  | n + 1 =>
    match fa.findFreeBlock with
    | none => (.error .noFreeBlocks, (fa.FreeBlocks blocks).2)
    | some block =>
      let fb := fa.freeBlocks.set block false
      match AllocateSectors fa.allocation (fa.blockMap.getD block 0)
          (BlockSize / BytesPerSector) with
      | (some e, a) =>
        let fa1 : FileAllocation :=
          { fa with freeBlocks := fb, allocation := a }
        (.error e, (fa1.FreeBlocks blocks).2)
      | (none, a) =>
        fragLoop { fa with freeBlocks := fb, allocation := a }
          (blocks ++ [block]) n

/-- `FileAllocation.AllocateFileSpace`: `ceil(size / BlockSize)` blocks,
rejected up front beyond `MaxBlocks`; first a contiguous run, else
fragmented allocation in ascending order. -/
def FileAllocation.AllocateFileSpace (fa : FileAllocation) (size : Nat) :
    Except GoErr (List Nat) × FileAllocation :=
  let blocksNeeded := (size + BlockSize - 1) / BlockSize
  if blocksNeeded > MaxBlocks then
    (.error (.fileSizeExceedsMax blocksNeeded), fa)
  else
    match fa.findContiguousBlocks blocksNeeded with
    | some startBlock => contigLoop fa [] startBlock blocksNeeded
    | none => fragLoop fa [] blocksNeeded

/-- `FileAllocation.GetFreeBlocks`: number of free blocks. -/
def FileAllocation.GetFreeBlocks (fa : FileAllocation) : Nat :=
  fa.freeBlocks.countP (fun free => free)

/-! ## pkg/diskimg/diskimg.go — the disk image -/

/-- `DiskHeader` (the 204 unused padding bytes are omitted).  `TracksNum`
and `SidesNum` are `uint8`, `TrackSize` a `uint16`. -/
structure DiskHeader where
  Signature : List Nat
  Creator : List Nat
  TracksNum : Nat
  SidesNum : Nat
  TrackSize : Nat
  deriving DecidableEq

/-- Byte values of `"EXTENDED CPC DSK File\r\nDisk-Info\r\n"`. -/
def DSKSignature : List Nat :=
  [69, 88, 84, 69, 78, 68, 69, 68, 32, 67, 80, 67, 32, 68, 83, 75, 32,
   70, 105, 108, 101, 13, 10, 68, 105, 115, 107, 45, 73, 110, 102, 111,
   13, 10]

/-- Byte values of `"plus3 utility"` copied into the 14-byte creator
field (final byte stays zero). -/
def CreatorBytes : List Nat :=
  [112, 108, 117, 115, 51, 32, 117, 116, 105, 108, 105, 116, 121, 0]

/-- `DiskImage`.  `allocation` models `di.allocation.allocated`;
`blockMap`/`freeBlocks` are the fields of the file allocator reachable as
`di.fileAlloc`, whose `allocation` pointer aliases the same bitmap (the
aliasing is modelled by storing the bitmap once, here).  The Go
`NewDiskImage` does not populate the file allocator; tests build it with
`newFileAllocation(disk)`, and `fileio.go` assumes it is present, so the
model initialises it the same way.  `sectorMap` is always
`NewSectorMap`. -/
structure DiskImage where
  Header : DiskHeader
  Tracks : List (List Nat)
  Modified : Bool
  allocation : List Bool
  blockMap : List Nat
  freeBlocks : List Bool
  directory : List DirectoryEntry
  dirModified : Bool
  diskSizeInBytes : Nat
  deriving DecidableEq

/-- The file allocator view of a disk (shares the bitmap). -/
def DiskImage.fileAlloc (di : DiskImage) : FileAllocation :=
  { allocation := di.allocation, blockMap := di.blockMap,
    freeBlocks := di.freeBlocks }

/-- Write back a file allocator state (the shared bitmap included). -/
def DiskImage.withFileAlloc (di : DiskImage) (fa : FileAllocation) :
    DiskImage :=
  { di with
      allocation := fa.allocation, blockMap := fa.blockMap,
      freeBlocks := fa.freeBlocks }

/-- `NewDiskImage`: empty standard +3 image — zero-filled tracks, an
all-free sector bitmap of `40·1·9 = 360` sectors, a zero-valued
64-entry directory. -/
def NewDiskImage : DiskImage :=
  let header : DiskHeader :=
    { Signature := DSKSignature, Creator := CreatorBytes,
      TracksNum := TracksPerSide, SidesNum := SidesPerDisk,
      TrackSize := BytesPerSector * SectorsPerTrack }
  let totalSectors := header.TracksNum * header.SidesNum * SectorsPerTrack
  let fa := newFileAllocation header.TracksNum header.SidesNum
    (List.replicate totalSectors false)
  { Header := header,
    Tracks := List.replicate (TracksPerSide * SidesPerDisk)
      (List.replicate (BytesPerSector * SectorsPerTrack) 0),
    Modified := true,
    allocation := fa.allocation,
    blockMap := fa.blockMap,
    freeBlocks := fa.freeBlocks,
    directory := List.replicate MaxDirectoryEntries emptyDirectoryEntry,
    dirModified := false,
    diskSizeInBytes := DiskSizeInBytes }

/-- `DiskImage.TotalSectors`. -/
def DiskImage.TotalSectors (di : DiskImage) : Nat :=
  di.diskSizeInBytes / BytesPerSector

/-- `DiskImage.GetSectorData`: map to a linear sector and byte offset,
require the sector allocated, and copy `BytesPerSector` bytes out of the
track buffer.  (With a zero-length track buffer the Go `%` would panic;
the theorems below only consider images with nonempty buffers.) -/
def DiskImage.GetSectorData (di : DiskImage) (track sector side : Int) :
    Except GoErr (List Nat) :=
  match NewSectorMap.PhysicalToLinear track sector side with
  | .error e => .error e
  | .ok linear =>
    match NewSectorMap.GetSectorOffset track sector side with
    | .error e => .error e
    | .ok offset =>
      match IsSectorAllocated di.allocation linear.toNat with
      | .error e => .error e
      | .ok allocated =>
        if !allocated then .error .readUnallocated
        else
          let trackIdxI := track + side * (di.Header.TracksNum : Int)
          if trackIdxI ≥ (di.Tracks.length : Int) then
            .error .trackIndexOutOfRange
          else
            let trackData := di.Tracks.getD trackIdxI.toNat []
            let sectorStart := offset.toNat % trackData.length
            if sectorStart + BytesPerSector > trackData.length then
              .error .sectorBeyondTrack
            else
              .ok ((trackData.drop sectorStart).take BytesPerSector)

/-- `DiskImage.SetSectorData`: validate the buffer size and coordinates,
allocate the target sector if needed, and overwrite `BytesPerSector`
bytes of the track buffer.  The updated image is returned alongside the
optional error, mirroring the in-place mutation (an error after the
allocation step leaves the sector allocated, as in the source). -/
def DiskImage.SetSectorData (di : DiskImage) (track sector side : Int)
    (data : List Nat) : Option GoErr × DiskImage :=
  if data.length ≠ BytesPerSector then
    (some .invalidSectorDataSize, di)
  else
    match NewSectorMap.PhysicalToLinear track sector side with
    | .error e => (some e, di)
    | .ok linear =>
      match NewSectorMap.GetSectorOffset track sector side with
      | .error e => (some e, di)
      | .ok offset =>
        match
          (if !(di.allocation.getD linear.toNat false) then
            AllocateSectors di.allocation linear.toNat 1
          else (none, di.allocation)) with
        | (some e, a) => (some e, { di with allocation := a })
        | (none, a) =>
          let di1 := { di with allocation := a }
          let trackIdxI := track + side * (di.Header.TracksNum : Int)
          if trackIdxI ≥ (di1.Tracks.length : Int) then
            (some .trackIndexOutOfRange, di1)
          else
            let trackData := di1.Tracks.getD trackIdxI.toNat []
            let sectorStart := offset.toNat % trackData.length
            if sectorStart + BytesPerSector > trackData.length then
              (some .sectorBeyondTrack, di1)
            else
              (none, { di1 with
                Tracks := di1.Tracks.set trackIdxI.toNat
                  (trackData.take sectorStart ++ data ++
                    trackData.drop (sectorStart + BytesPerSector)),
                Modified := true })

/-! ## pkg/diskimg/fileio.go — file handles and stream I/O -/

/-- `File`: an open file on the disk image.  `entryIndex` stands for the
Go pointer into the directory table; positions and sizes are the
non-negative values the `int64` fields hold in every reachable state. -/
structure File where
  entryIndex : Nat
  header : Option Plus3DosHeader
  blocks : List Nat
  position : Nat
  size : Nat
  readOnly : Bool
  isHeadered : Bool
  deriving DecidableEq

/-- `copy(dst[pos:pos+n], src)`: overwrite up to `n` bytes of `dst` at
`pos` from `src` (stopping at either list's end). -/
def copyInto (dst : List Nat) (pos : Nat) (src : List Nat) (n : Nat) :
    List Nat :=
  match n, src with
  | 0, _ => dst
  | _, [] => dst
  | m + 1, s :: rest => copyInto (dst.set pos s) (pos + 1) rest m

/-- The read loop of `File.ReadAt`: walk blocks, reading each sector via
`GetSectorData` and copying into the buffer; a read error returns
immediately with the bytes read so far. -/
def readLoop (di : DiskImage) (f : File) (off toRead : Nat) (p : List Nat)
    (read : Nat) : Nat × List Nat × Option GoErr :=
  if _h : read < toRead then
    if (off + read) / BlockSize ≥ f.blocks.length then (read, p, none)
    else
      match di.GetSectorData
          (((di.blockMap.getD (f.blocks.getD ((off + read) / BlockSize) 0) 0 +
            (off + read) % BlockSize / BytesPerSector) / SectorsPerTrack : Nat))
          (((di.blockMap.getD (f.blocks.getD ((off + read) / BlockSize) 0) 0 +
            (off + read) % BlockSize / BytesPerSector) % SectorsPerTrack : Nat))
          0 with
      | .error e => (read, p, some e)
      | .ok data =>
        readLoop di f off toRead
          (copyInto p read data (min (toRead - read)
            (BlockSize - (off + read) % BlockSize)))
          (read + min (toRead - read) (BlockSize - (off + read) % BlockSize))
  else (read, p, none)
termination_by toRead - read
decreasing_by
  simp only [BlockSize] at *
  omega

/-- `File.ReadAt`: EOF at or past `size`; otherwise read up to
`min (len p) (size - off)` bytes, reporting EOF on a short read. -/
def File.ReadAt (f : File) (di : DiskImage) (p : List Nat) (off : Nat) :
    Nat × List Nat × Option GoErr :=
  if off ≥ f.size then (0, p, some .eof)
  else
    match readLoop di f off (min p.length (f.size - off)) p 0 with
    | (read, p2, some e) => (read, p2, some e)
    | (read, p2, none) =>
      (read, p2, if read < p.length then some .eof else none)

/-- `File.Read`: `ReadAt` at the cursor, advancing it by the bytes read. -/
def File.Read (f : File) (di : DiskImage) (p : List Nat) :
    Nat × List Nat × Option GoErr × File :=
  match f.ReadAt di p f.position with
  | (n, p2, e) => (n, p2, e, { f with position := f.position + n })

/-- The write loop of `File.WriteAt`: walk blocks, writing slices of the
buffer via `SetSectorData`; an error returns immediately with the bytes
written so far and the mutated image. -/
def writeLoop (f : File) (di : DiskImage) (off : Nat) (p : List Nat)
    (written : Nat) : Nat × DiskImage × Option GoErr :=
  if _h : written < p.length then
    if (off + written) / BlockSize ≥ f.blocks.length then (written, di, none)
    else
      match di.SetSectorData
          (((di.blockMap.getD (f.blocks.getD ((off + written) / BlockSize) 0)
              0 + (off + written) % BlockSize / BytesPerSector) /
            SectorsPerTrack : Nat))
          (((di.blockMap.getD (f.blocks.getD ((off + written) / BlockSize) 0)
              0 + (off + written) % BlockSize / BytesPerSector) %
            SectorsPerTrack : Nat))
          0
          ((p.drop written).take (min (p.length - written)
            (BlockSize - (off + written) % BlockSize))) with
      | (some e, di2) => (written, di2, some e)
      | (none, di2) =>
        writeLoop f di2 off p
          (written + min (p.length - written)
            (BlockSize - (off + written) % BlockSize))
  else (written, di, none)
termination_by p.length - written
decreasing_by
  simp only [BlockSize] at *
  omega

/-- `File.WriteAt`: reject read-only handles; extend the size (allocating
blocks via the file allocator) when writing past the end; then run the
write loop.  On an allocation failure nothing is written and the
(possibly rolled-back) allocator state is kept. -/
def File.WriteAt (f : File) (di : DiskImage) (p : List Nat) (off : Nat) :
    Nat × Option GoErr × File × DiskImage :=
  if f.readOnly then (0, some .fileReadOnly, f, di)
  else
    let endPos := off + p.length
    match
      (if endPos > f.size then
        if (endPos + BlockSize - 1) / BlockSize > f.blocks.length then
          match di.fileAlloc.AllocateFileSpace (endPos - f.size) with
          | (.error e, fa2) =>
            (some (GoErr.allocFailed e), f, di.withFileAlloc fa2)
          | (.ok newBlocks, fa2) =>
            (none, { f with blocks := f.blocks ++ newBlocks, size := endPos },
              di.withFileAlloc fa2)
        else (none, { f with size := endPos }, di)
      else (none, f, di)) with
    | (some e, f2, di2) => (0, some e, f2, di2)
    | (none, f2, di2) =>
      match writeLoop f2 di2 off p 0 with
      | (written, di3, some e) => (written, some e, f2, di3)
      | (written, di3, none) =>
        (written, none, { f2 with position := off + written }, di3)

/-- `File.Write`: reject read-only handles, then `WriteAt` at the
cursor. -/
def File.Write (f : File) (di : DiskImage) (p : List Nat) :
    Nat × Option GoErr × File × DiskImage :=
  if f.readOnly then (0, some .fileReadOnly, f, di)
  else f.WriteAt di p f.position

/-- `File.Seek` (whence 0 = start, 1 = current, 2 = end; a negative
resulting position is rejected). -/
def File.Seek (f : File) (offset : Int) (whence : Nat) :
    Except GoErr Int × File :=
  match
    (if whence = 0 then Except.ok offset
    else if whence = 1 then Except.ok ((f.position : Int) + offset)
    else if whence = 2 then Except.ok ((f.size : Int) + offset)
    else Except.error GoErr.invalidWhence) with
  | .error e => (.error e, f)
  | .ok abs =>
    if abs < 0 then (.error .negativePosition, f)
    else (.ok abs, { f with position := abs.toNat })

/-- `File.Close`: for headered files rewrite the header (length +
checksum) through `WriteAt`; then update the directory entry's logical
size (128-byte records, `uint16`) and block count (little-endian
`uint16` into the first two allocation bytes). -/
def File.Close (f : File) (di : DiskImage) :
    Option GoErr × File × DiskImage :=
  if f.readOnly then (none, f, di)
  else
    match
      (if f.isHeadered then
        match f.header with
        | none => (some GoErr.nilHeader, f, di)
        | some h =>
          match File.WriteAt
              { f with header := some (Plus3DosHeader.UpdateChecksum
                  { h with FileLength := f.size % 4294967296 }) }
              di
              (Plus3DosHeader.UpdateChecksum
                { h with FileLength := f.size % 4294967296 }).toBytes 0 with
          | (_, some e, f2, di2) => (some (GoErr.writeHeaderFailed e), f2, di2)
          | (_, none, f2, di2) => (none, f2, di2)
      else (none, f, di)) with
    | (some e, f2, di2) => (some e, f2, di2)
    | (none, f2, di2) =>
      let entry := di2.directory.getD f2.entryIndex emptyDirectoryEntry
      (none, f2, { di2 with
        directory := di2.directory.set f2.entryIndex
          { entry with
            LogicalSize := (f2.size + 127) / 128 % 65536,
            AllocationBlocks :=
              (entry.AllocationBlocks.set 0 (f2.blocks.length % 65536 % 256)).set
                1 (f2.blocks.length % 65536 / 256) },
        dirModified := true })

/-- The shared tail of `DiskImage.OpenFile`: build the handle (blocks,
size, header left at their Go zero values), then probe for a 128-byte
PLUS3DOS header at offset 0 and, when it reads fully, parses and
validates, mark the handle headered with the cursor past the header. -/
def openFinish (di : DiskImage) (idx : Nat) :
    Except GoErr (File × DiskImage) :=
  let f : File :=
    { entryIndex := idx, header := none, blocks := [], position := 0,
      size := 0, readOnly := false, isHeadered := false }
  match f.ReadAt di (List.replicate HeaderSize 0) 0 with
  | (n, buf, err) =>
    if err = none ∧ n = HeaderSize then
      match Plus3DosHeader.FromBytes buf with
      | .ok hdr =>
        match hdr.Validate with
        | .ok _ =>
          .ok ({ f with
                   header := some hdr, isHeadered := true,
                   position := HeaderSize }, di)
        | .error _ => .ok (f, di)
      | .error _ => .ok (f, di)
    else .ok (f, di)

/-- `DiskImage.OpenFile`: find the entry (create it when `createNew`),
then probe for a header via `openFinish`. -/
def DiskImage.OpenFile (di : DiskImage) (filename : List Nat)
    (createNew : Bool) : Except GoErr (File × DiskImage) :=
  match FindFile di.directory filename with
  | .ok (_, idx) => openFinish di idx
  | .error e =>
    if !createNew then .error e
    else
      match AddFile di.directory filename with
      | .error e2 => .error e2
      | .ok (idx, dir2) =>
        openFinish { di with directory := dir2, dirModified := true } idx

/-! ## pkg/diskimg/directory_ops.go — reading the on-disk directory -/

/-- `DiskImage.readDirectory` (directory_ops.go): read the
`DirectorySizeInSectors` directory sectors of track 0 into one buffer. -/
def DiskImage.readDirectory (di : DiskImage) : Except GoErr (List Nat) :=
  (List.range DirectorySizeInSectors).foldl
    (fun acc sector =>
      match acc with
      | .error e => .error e
      | .ok buf =>
        match di.GetSectorData 0 ((sector + DirectoryStartSector : Nat) : Int)
            0 with
        | .error _ => .error (.dirReadFailed sector)
        | .ok data => .ok (buf ++ data))
    (.ok [])

/-- `binary.Read` of one 32-byte directory entry slice.  The Go
`DirectoryEntry` struct needs 35 bytes (1+8+3+1+1+1+1+16+1+2), so reading
it from a 32-byte slice always fails with unexpected EOF — modelled by
the length guard. -/
def parseDirEntry (b : List Nat) : Except GoErr DirectoryEntry :=
  if b.length < 35 then .error .dirEntryParseFailed
  else
    .ok { Status := b.getD 0 0,
          Name := (b.drop 1).take 8,
          Extension := (b.drop 9).take 3,
          Extent := b.getD 12 0,
          Reserved1 := b.getD 13 0,
          Reserved2 := b.getD 14 0,
          RecordCount := b.getD 15 0,
          AllocationBlocks := (b.drop 16).take 16,
          FirstRecord := b.getD 32 0,
          LogicalSize := b.getD 33 0 + 256 * b.getD 34 0 }

/-- `DiskImage.GetDirectory` (directory_ops.go): parse
`MaxDirectoryEntries` 32-byte slots, leaving `0xE5`-led slots at the Go
zero value and failing on the first slot `binary.Read` rejects. -/
def DiskImage.GetDirectory (di : DiskImage) :
    Except GoErr (List DirectoryEntry) :=
  match di.readDirectory with
  | .error e => .error e
  | .ok dirData =>
    (List.range MaxDirectoryEntries).foldl
      (fun acc i =>
        match acc with
        | .error e => .error e
        | .ok entries =>
          if dirData.getD (i * DirectoryEntrySize) 0 = 229 then
            .ok (entries ++ [emptyDirectoryEntry])
          else
            match parseDirEntry
                ((dirData.drop (i * DirectoryEntrySize)).take
                  DirectoryEntrySize) with
            | .error e => .error e
            | .ok entry => .ok (entries ++ [entry]))
      (.ok [])

/-! ## pkg/diskimg/diskcheck.go — the validator -/

inductive ValidationLevel where
  | basic
  | strict
  deriving DecidableEq

/-- Violations reported by `DiskCheck`.  Each constructor corresponds to
one `addError` site; payloads carry the values the Go message
interpolates where they distinguish occurrences. -/
inductive CheckError where
  | invalidSignature
  | invalidTrackCount (got : Nat)
  | invalidSideCount (got : Nat)
  | invalidTrackSize (got : Nat)
  | trackDataMismatch (expected found : Nat)
  | trackSizeMismatch (i : Nat)
  | sectorReadFailed (t s : Nat)
  | invalidSectorSize (t s : Nat)
  | cannotReadDirSector
  | dirSectorUnreadable (s : Nat)
  | cannotReadBootSector
  | invalidBootChecksum
  | nonFillerData (t s : Nat)
  | dirUnreadableForFiles
  | invalidAllocBlock (i b : Nat)
  | sizeInconsistency (i : Nat)
  | dirUnreadableForEntries
  | duplicateFilename (i : Nat)
  | invalidCharInFilename (i : Nat)
  | invalidCharInExtension (i : Nat)
  | invalidExtent (i : Nat)
  | invalidRecordCount (i : Nat)
  deriving DecidableEq

/-- `DiskCheck.checkDiskHeader`: signature and +3 geometry parameters. -/
def checkDiskHeader (di : DiskImage) : List CheckError :=
  (if di.Header.Signature.take 34 ≠ DSKSignature then
    [.invalidSignature] else []) ++
  (if di.Header.TracksNum ≠ TracksPerSide then
    [.invalidTrackCount di.Header.TracksNum] else []) ++
  (if di.Header.SidesNum ≠ SidesPerDisk then
    [.invalidSideCount di.Header.SidesNum] else []) ++
  (if di.Header.TrackSize ≠ BytesPerSector * SectorsPerTrack then
    [.invalidTrackSize di.Header.TrackSize] else [])

/-- `DiskCheck.checkTrackCount`: track-buffer count (the Go
`TracksNum * SidesNum` product is `uint8`) and per-track sizes. -/
def checkTrackCount (di : DiskImage) : List CheckError :=
  (if di.Tracks.length ≠ di.Header.TracksNum * di.Header.SidesNum % 256 then
    [.trackDataMismatch (di.Header.TracksNum * di.Header.SidesNum % 256)
      di.Tracks.length]
  else []) ++
  (List.range di.Tracks.length).filterMap (fun i =>
    if (di.Tracks.getD i []).length ≠ di.Header.TrackSize then
      some (.trackSizeMismatch i)
    else none)

/-- `DiskCheck.checkSectorSizes`: every sector of every header-declared
track must read back with `BytesPerSector` bytes. -/
def checkSectorSizes (di : DiskImage) : List CheckError :=
  (List.range di.Header.TracksNum).foldr
    (fun t acc =>
      ((List.range SectorsPerTrack).filterMap (fun s =>
        match di.GetSectorData (t : Nat) (s : Nat) 0 with
        | .error _ => some (.sectorReadFailed t s)
        | .ok data =>
          if data.length ≠ BytesPerSector then some (.invalidSectorSize t s)
          else none)) ++ acc)
    []

/-- `DiskCheck.checkDirectoryStructure`: the directory sectors of track 0
must be readable (an unreadable first sector aborts the check). -/
def checkDirectoryStructure (di : DiskImage) : List CheckError :=
  match di.GetSectorData 0 (DirectorySector : Nat) 0 with
  | .error _ => [.cannotReadDirSector]
  | .ok _ =>
    (List.range ((MaxDirectoryEntries * DirectoryEntrySize +
        BytesPerSector - 1) / BytesPerSector)).filterMap (fun s =>
      match di.GetSectorData 0 ((DirectorySector + s : Nat) : Int) 0 with
      | .error _ => some (.dirSectorUnreadable (DirectorySector + s))
      | .ok _ => none)

/-- `DiskCheck.checkBootSector`: byte 15 must bring the byte sum of the
boot sector to 3 modulo 256. -/
def checkBootSector (di : DiskImage) : List CheckError :=
  match di.GetSectorData 0 0 0 with
  | .error _ => [.cannotReadBootSector]
  | .ok boot =>
    if ((boot.take 15).sum + (boot.drop 16).sum + boot.getD 15 0) % 256 ≠ 3
    then [.invalidBootChecksum] else []

/-- `DiskCheck.checkUnusedSectors`: unallocated sectors must hold the
`0xE5` filler.  (`GetSectorData` refuses unallocated sectors, so the
inner read can only fail and the check never fires — kept faithful.) -/
def checkUnusedSectors (di : DiskImage) : List CheckError :=
  (List.range di.Header.TracksNum).foldr
    (fun t acc =>
      ((List.range SectorsPerTrack).filterMap (fun s =>
        match NewSectorMap.PhysicalToLinear (t : Nat) (s : Nat) 0 with
        | .error _ => none
        | .ok linear =>
          match IsSectorAllocated di.allocation linear.toNat with
          | .error _ => none
          | .ok true => none
          | .ok false =>
            match di.GetSectorData (t : Nat) (s : Nat) 0 with
            | .error _ => none
            | .ok data =>
              if data.any (fun b => b != 229) then some (.nonFillerData t s)
              else none)) ++ acc)
    []

/-- `DiskCheck.checkFileConsistency`: live entries must reference
in-range allocation blocks and sizes consistent with their allocation. -/
def checkFileConsistency (di : DiskImage) : List CheckError :=
  match di.GetDirectory with
  | .error _ => [.dirUnreadableForFiles]
  | .ok entries =>
    (List.range entries.length).foldr
      (fun i acc =>
        (let entry := entries.getD i emptyDirectoryEntry
        if !entry.IsDeleted && !entry.IsUnused then
          (entry.AllocationBlocks.filterMap (fun block =>
            if block ≠ 0 then
              (if block ≥ di.allocation.length then
                some (.invalidAllocBlock i block)
              else none)
            else none)) ++
          (if entry.LogicalSize * 128 >
              BytesPerSector * entry.AllocationBlocks.length then
            [.sizeInconsistency i]
          else [])
        else []) ++ acc)
      []

/-- `DiskCheck.validateDirectoryEntry`: character-set and sanity checks,
first violation only. -/
def validateDirectoryEntry (entry : DirectoryEntry) (index : Nat) :
    Option CheckError :=
  if entry.Name.any (fun c => c != 32 && (decide (c < 33) ||
      decide (c > 126))) then
    some (.invalidCharInFilename index)
  else if entry.Extension.any (fun c => c != 32 && (decide (c < 33) ||
      decide (c > 126))) then
    some (.invalidCharInExtension index)
  else if entry.Extent > 31 then some (.invalidExtent index)
  else if entry.RecordCount > 128 then some (.invalidRecordCount index)
  else none

/-- `DiskCheck.checkDirectoryEntries`: duplicate-filename detection (an
entry is flagged when an earlier live entry already claimed its name)
followed by per-entry validation. -/
def checkDirectoryEntries (di : DiskImage) : List CheckError :=
  match di.GetDirectory with
  | .error _ => [.dirUnreadableForEntries]
  | .ok entries =>
    ((List.range entries.length).filterMap (fun i =>
      let e := entries.getD i emptyDirectoryEntry
      if (!e.IsDeleted && !e.IsUnused) &&
          ((List.range i).any (fun j =>
            let e2 := entries.getD j emptyDirectoryEntry
            !e2.IsDeleted && !e2.IsUnused &&
              e2.GetFilename == e.GetFilename)) then
        some (.duplicateFilename i)
      else none)) ++
    ((List.range entries.length).filterMap (fun i =>
      let e := entries.getD i emptyDirectoryEntry
      if !e.IsDeleted && !e.IsUnused then validateDirectoryEntry e i
      else none))

/-- `DiskCheck.Validate`: run the basic structure checks, then the strict
ones when requested, accumulating every violation in order. -/
def DiskCheckValidate (di : DiskImage) (level : ValidationLevel) :
    List CheckError :=
  checkDiskHeader di ++ checkTrackCount di ++ checkSectorSizes di ++
    checkDirectoryStructure di ++
    (if level = .strict then
      checkBootSector di ++ checkUnusedSectors di ++
        checkFileConsistency di ++ checkDirectoryEntries di
    else [])

/-! ### basic lemmas about the bitmap operations -/

theorem setRange_length (a : List Bool) (start count : Nat) (v : Bool) :
    (setRange a start count v).length = a.length := by
  induction count generalizing a start with
  | zero => rfl
  | succ n ih => simp [setRange, ih]

theorem getD_set (a : List Bool) (j i : Nat) (v : Bool) :
    (a.set j v).getD i false =
      if j = i ∧ j < a.length then v else a.getD i false := by
  by_cases h1 : j = i
  · subst h1
    by_cases h2 : j < a.length
    · simp [List.getD_eq_getElem?_getD, List.getElem?_set, h2]
    · have hn : a[j]? = none := List.getElem?_eq_none (by omega)
      simp [List.getD_eq_getElem?_getD, List.getElem?_set, h2, hn]
  · simp [List.getD_eq_getElem?_getD, List.getElem?_set, h1]

theorem getD_setRange (a : List Bool) (start count : Nat) (v : Bool)
    (i : Nat) :
    (setRange a start count v).getD i false =
      if start ≤ i ∧ i < start + count ∧ i < a.length then v
      else a.getD i false := by
  induction count generalizing a start with
  | zero =>
    have hno : ¬(start ≤ i ∧ i < start ∧ i < a.length) := by omega
    simp [setRange, hno]
  | succ n ih =>
    simp only [setRange]
    rw [ih, getD_set]
    simp only [List.length_set]
    by_cases hc : start + 1 ≤ i ∧ i < start + 1 + n ∧ i < a.length
    · simp only [hc, if_true]
      have hall : start ≤ i ∧ i < start + (n + 1) ∧ i < a.length := by omega
      simp [hall]
    · simp only [hc, if_false]
      by_cases hd : start = i ∧ start < a.length
      · obtain ⟨rfl, h2⟩ := hd
        have hall : start ≤ start ∧ start < start + (n + 1) ∧
            start < a.length := by omega
        simp [hall]
      · simp only [hd, if_false]
        have hnone : ¬(start ≤ i ∧ i < start + (n + 1) ∧ i < a.length) := by
          rintro ⟨h1, h2, h3⟩
          rcases Nat.eq_or_lt_of_le h1 with he | hlt
          · exact hd ⟨he, by omega⟩
          · exact hc ⟨by omega, by omega, h3⟩
        simp [hnone]

theorem firstAllocatedInRange_none (a : List Bool) (start count : Nat)
    (h : firstAllocatedInRange a start count = none) :
    ∀ i, start ≤ i → i < start + count → a.getD i false = false := by
  induction count generalizing start with
  | zero => intro i h1 h2; omega
  | succ n ih =>
    rw [firstAllocatedInRange] at h
    split at h
    · exact absurd h (by simp)
    · rename_i hs
      intro i h1 h2
      by_cases hi : i = start
      · subst hi; simpa using hs
      · exact ih (start + 1) h i (by omega) (by omega)

theorem firstAllocatedInRange_isSome (a : List Bool) (start count i : Nat)
    (h1 : start ≤ i) (h2 : i < start + count) (h3 : a.getD i false = true) :
    ∃ j, firstAllocatedInRange a start count = some j := by
  rcases heq : firstAllocatedInRange a start count with _ | j
  · have hfalse := firstAllocatedInRange_none a start count heq i h1 h2
    rw [h3] at hfalse
    exact absurd hfalse (by simp)
  · exact ⟨j, rfl⟩

theorem getD_lt {α : Type} (d : α) (l : List α) (i : Nat) (h : i < l.length) :
    l.getD i d = l[i] := by
  simp [List.getD_eq_getElem?_getD, List.getElem?_eq_getElem h]

theorem ext_getD {α : Type} (d : α) (l₁ l₂ : List α)
    (hlen : l₁.length = l₂.length)
    (h : ∀ i, l₁.getD i d = l₂.getD i d) : l₁ = l₂ := by
  apply List.ext_getElem hlen
  intro i h1 h2
  have h3 := h i
  rw [getD_lt d _ _ h1, getD_lt d _ _ h2] at h3
  exact h3

/-! ### Claim C2 — geometry round-trip and range validation -/

/-- C2: for every (track, sector, side) within the fixed geometry bounds
(0 ≤ track < 40, 0 ≤ sector < 9, side = 0), `PhysicalToLinear` succeeds
and `LinearToPhysical` applied to its result returns exactly
(track, sector, side); inputs outside these bounds make either function
fail with an out-of-range error rather than clamp. -/
theorem C2_addressing_roundtrip :
    (∀ track sector side : Int,
      0 ≤ track → track < 40 → 0 ≤ sector → sector < 9 → side = 0 →
      ∃ lin, NewSectorMap.PhysicalToLinear track sector side = .ok lin ∧
        NewSectorMap.LinearToPhysical lin = .ok (track, sector, side)) ∧
    (∀ track sector side : Int,
      ¬(0 ≤ track ∧ track < 40 ∧ 0 ≤ sector ∧ sector < 9 ∧ side = 0) →
      ∃ e, NewSectorMap.PhysicalToLinear track sector side = .error e) ∧
    (∀ lin : Int, ¬(0 ≤ lin ∧ lin < 360) →
      ∃ e, NewSectorMap.LinearToPhysical lin = .error e) := by
  refine ⟨?_, ?_, ?_⟩
  · intro t s sd ht0 ht1 hs0 hs1 hsd
    subst hsd
    refine ⟨0 * 40 * 9 + t * 9 + s, ?_, ?_⟩
    · simp only [SectorMap.PhysicalToLinear, NewSectorMap]
      rw [if_neg (by omega), if_neg (by omega), if_neg (by omega)]
    · simp only [SectorMap.LinearToPhysical, NewSectorMap]
      rw [if_neg (by omega)]
      norm_num [Except.ok.injEq, Prod.mk.injEq]
      refine ⟨?_, ?_, ?_⟩ <;> omega
  · intro t s sd h
    simp only [SectorMap.PhysicalToLinear, NewSectorMap]
    split_ifs with h1 h2 h3
    · exact ⟨_, rfl⟩
    · exact ⟨_, rfl⟩
    · exact ⟨_, rfl⟩
    · exfalso; omega
  · intro lin h
    simp only [SectorMap.LinearToPhysical, NewSectorMap]
    split_ifs with h1
    · exact ⟨_, rfl⟩
    · exfalso; omega

/-- Witness for C2 at (7, 5, 0), track 40 and linear 360. -/
theorem C2_addressing_roundtrip_witness :
    (∃ lin, NewSectorMap.PhysicalToLinear 7 5 0 = .ok lin ∧
      NewSectorMap.LinearToPhysical lin = .ok (7, 5, 0)) ∧
    (∃ e, NewSectorMap.PhysicalToLinear 40 0 0 = .error e) ∧
    (∃ e, NewSectorMap.LinearToPhysical 360 = .error e) :=
  ⟨C2_addressing_roundtrip.1 7 5 0 (by decide) (by decide) (by decide)
    (by decide) rfl,
   C2_addressing_roundtrip.2.1 40 0 0 (by decide),
   C2_addressing_roundtrip.2.2 360 (by decide)⟩

/-! ### Claim C3 — atomic allocation failure and free-space restoration -/

/-- C3: for an in-bounds range, if any sector is already allocated,
`AllocateSectors` errors leaving the bitmap unchanged; and a successful
`AllocateSectors` followed by `FreeSectors` over the same range restores
the bitmap — in particular `GetFreeSpace` — exactly. -/
theorem C3_alloc_free_roundtrip (a : List Bool) (start count : Nat)
    (hin : start + count ≤ a.length) :
    ((∃ i, start ≤ i ∧ i < start + count ∧ a.getD i false = true) →
      ∃ e, AllocateSectors a start count = (some e, a)) ∧
    (∀ a', AllocateSectors a start count = (none, a') →
      (FreeSectors a' start count).1 = none ∧
      (FreeSectors a' start count).2 = a ∧
      GetFreeSpace (FreeSectors a' start count).2 = GetFreeSpace a) := by
  constructor
  · rintro ⟨i, h1, h2, h3⟩
    obtain ⟨j, hj⟩ := firstAllocatedInRange_isSome a start count i h1 h2 h3
    refine ⟨.sectorAlreadyAllocated j, ?_⟩
    unfold AllocateSectors
    rw [if_neg (by omega), hj]
  · intro a' h
    unfold AllocateSectors at h
    rw [if_neg (by omega)] at h
    rcases heq : firstAllocatedInRange a start count with _ | j
    · rw [heq] at h
      simp only [Prod.mk.injEq] at h
      have ha' : a' = setRange a start count true := h.2.symm
      subst ha'
      have hall := firstAllocatedInRange_none a start count heq
      have hcancel : setRange (setRange a start count true) start count false
          = a := by
        apply ext_getD false
        · rw [setRange_length, setRange_length]
        · intro i
          rw [getD_setRange, getD_setRange, setRange_length]
          by_cases hc : start ≤ i ∧ i < start + count ∧ i < a.length
          · rw [if_pos hc]; exact (hall i hc.1 hc.2.1).symm
          · rw [if_neg hc, if_neg hc]
      have hfree : FreeSectors (setRange a start count true) start count =
          (none, setRange (setRange a start count true) start count false) := by
        unfold FreeSectors
        rw [if_neg (by rw [setRange_length]; omega)]
      rw [hfree, hcancel]
      exact ⟨rfl, rfl, rfl⟩
    · rw [heq] at h
      simp at h

/-- Witness for C3 on a 4-sector bitmap with sector 2 allocated
(failure case) and the range [0, 2) (success case). -/
theorem C3_alloc_free_roundtrip_witness :
    ((∃ i, 1 ≤ i ∧ i < 1 + 2 ∧
        [false, false, true, false].getD i false = true) →
      ∃ e, AllocateSectors [false, false, true, false] 1 2 =
        (some e, [false, false, true, false])) ∧
    (∀ a', AllocateSectors [false, false, true, false] 0 2 = (none, a') →
      (FreeSectors a' 0 2).1 = none ∧
      (FreeSectors a' 0 2).2 = [false, false, true, false] ∧
      GetFreeSpace (FreeSectors a' 0 2).2 =
        GetFreeSpace [false, false, true, false]) :=
  ⟨(C3_alloc_free_roundtrip [false, false, true, false] 1 2 (by decide)).1,
   (C3_alloc_free_roundtrip [false, false, true, false] 0 2 (by decide)).2⟩

/-! ### Claim C6 — allocation-bitmap invariant (refuted at creation)

The spec-side predicates below follow the spec's words (§3,
SectorAllocation invariant): the reserved system region is the boot block
plus the directory blocks, and a live entry covers the sectors of each
nonzero block in its block list. -/

/-- Spec-side definition: sector in the reserved system region. -/
def specReservedSector (i : Nat) : Bool :=
  decide (i < (ReservedBlocks + BlocksPerDir) * (BlockSize / BytesPerSector))

/-- Spec-side definition: a live (non-deleted, non-unused) entry's block
list includes a block containing sector `i`. -/
def specLiveEntryCoversSector (e : DirectoryEntry) (i : Nat) : Bool :=
  (!e.IsDeleted && !e.IsUnused) &&
    e.AllocationBlocks.any (fun b =>
      b != 0 && decide (b * (BlockSize / BytesPerSector) ≤ i) &&
        decide (i < b * (BlockSize / BytesPerSector) +
          (BlockSize / BytesPerSector)))

/-- C6 counterexample: in the freshly created image, sector 0 lies in the
reserved region, no live entry covers it, yet the bitmap reports it
free — so "allocated iff covered-or-reserved" fails at creation. -/
theorem C6_invariant_counterexample :
    IsSectorAllocated NewDiskImage.allocation 0 = .ok false ∧
    specReservedSector 0 = true ∧
    NewDiskImage.directory.any
      (fun e => specLiveEntryCoversSector e 0) = false := by
  decide

/-- C6 (amended): a freshly created DiskImage marks every sector of the
bitmap free — the reserved region included — while only the block
free-list of the file allocator marks the boot and directory blocks
used. -/
theorem C6_fresh_image_bitmap_all_free :
    (∀ i < NewDiskImage.allocation.length,
      IsSectorAllocated NewDiskImage.allocation i = .ok false) ∧
    (∀ b < ReservedBlocks + BlocksPerDir,
      NewDiskImage.freeBlocks.getD b true = false) := by
  decide

/-- Witness for the amended C6 at sector 5 and block 2. -/
theorem C6_fresh_image_bitmap_all_free_witness :
    IsSectorAllocated NewDiskImage.allocation 5 = .ok false ∧
    NewDiskImage.freeBlocks.getD 2 true = false :=
  ⟨C6_fresh_image_bitmap_all_free.1 5 (by decide),
   C6_fresh_image_bitmap_all_free.2 2 (by decide)⟩

/-! ### Claim C8 — attribute encoding (code bug)

The inputs below are those of the source's own test
(`TestDirectoryEntryAttributes` in fileattr_test.go), which the code
fails: `AttrArchived = 0x20` can never match the `1 << i` probe of the
three extension positions, and `AttrUserF1/F3 = 0x40` never pass the
`& 0x80` probe of the name-attribute bytes. -/

def testAttrsC8 : FileAttributes :=
  { ReadOnly := true, System := false, Archived := true,
    UserF1 := true, UserF2 := false, UserF3 := true, UserF4 := false }

def testEntryC8 : DirectoryEntry :=
  { emptyDirectoryEntry with
      Status := 1,
      Name := [84, 69, 83, 84, 32, 32, 32, 32],
      Extension := [66, 65, 83] }

def zeroAttrsC8 : FileAttributes :=
  { ReadOnly := false, System := false, Archived := false,
    UserF1 := false, UserF2 := false, UserF3 := false, UserF4 := false }

/-- C8: writing the test's attribute set leaves the archived bit
(extension byte 2) and the user-flag bits f1/f3 (name bytes 0 and 2)
clear, and reading back loses those three flags, contradicting the
claimed one-to-one encoding and exact recovery (the reserved name bytes
4..7 and the read-only flag do behave as claimed). -/
theorem C8_attribute_encoding_bug :
    ((testAttrsC8.ApplyToDirectoryEntry testEntryC8).Extension.getD 2 0 &&&
      128) = 0 ∧
    ((testAttrsC8.ApplyToDirectoryEntry testEntryC8).Name.getD 0 0 &&&
      128) = 0 ∧
    ((testAttrsC8.ApplyToDirectoryEntry testEntryC8).Name.getD 2 0 &&&
      128) = 0 ∧
    (zeroAttrsC8.ReadFromDirectoryEntry
      (testAttrsC8.ApplyToDirectoryEntry testEntryC8)).Archived = false ∧
    (zeroAttrsC8.ReadFromDirectoryEntry
      (testAttrsC8.ApplyToDirectoryEntry testEntryC8)).UserF1 = false ∧
    (zeroAttrsC8.ReadFromDirectoryEntry
      (testAttrsC8.ApplyToDirectoryEntry testEntryC8)).UserF3 = false ∧
    ((testAttrsC8.ApplyToDirectoryEntry testEntryC8).Name.getD 4 0 &&&
      128) = 0 ∧
    ((testAttrsC8.ApplyToDirectoryEntry testEntryC8).Name.getD 7 0 &&&
      128) = 0 ∧
    (zeroAttrsC8.ReadFromDirectoryEntry
      (testAttrsC8.ApplyToDirectoryEntry testEntryC8)).ReadOnly = true := by
  decide

/-! ### Claim C1 — sector write/read round-trip -/

theorem p2l_nat_ok (t s : Nat) (ht : t < 40) (hs : s < 9) :
    NewSectorMap.PhysicalToLinear (t : Int) (s : Int) 0 =
      .ok ((t * 9 + s : Nat) : Int) := by
  simp only [SectorMap.PhysicalToLinear, NewSectorMap]
  rw [if_neg (by omega), if_neg (by omega), if_neg (by omega)]
  congr 1
  omega

theorem trackoffset_nat_ok (t : Nat) (ht : t < 40) :
    NewSectorMap.GetTrackOffset (t : Int) 0 = .ok ((t * 4608 : Nat) : Int) := by
  simp only [SectorMap.GetTrackOffset, NewSectorMap]
  rw [if_neg (by omega), if_neg (by omega)]
  congr 1
  omega

theorem offset_nat_ok (t s : Nat) (ht : t < 40) (hs : s < 9) :
    NewSectorMap.GetSectorOffset (t : Int) (s : Int) 0 =
      .ok ((t * 4608 + s * 512 : Nat) : Int) := by
  unfold SectorMap.GetSectorOffset
  rw [trackoffset_nat_ok t ht]
  simp only [NewSectorMap]
  rw [if_neg (by omega)]
  congr 1

theorem allocateSectors_one_ok (a : List Bool) (p : Nat)
    (hb : a.getD p false = false) (hlen : p + 1 ≤ a.length) :
    AllocateSectors a p 1 = (none, setRange a p 1 true) := by
  unfold AllocateSectors
  rw [if_neg (by omega)]
  have hfirst : firstAllocatedInRange a p 1 = none := by
    simp only [firstAllocatedInRange, hb, Bool.false_eq_true, if_false]
  rw [hfirst]

theorem getD_setRange_self (a : List Bool) (p : Nat) (hp : p < a.length) :
    (setRange a p 1 true).getD p false = true := by
  rw [getD_setRange]
  rw [if_pos (by omega)]

/-- C1: for every 512-byte buffer and every in-geometry (track, sector)
on side 0 of a well-formed image (40 tracks of 4608 bytes, a 360-sector
bitmap), `SetSectorData` succeeds and `GetSectorData` at the same
coordinates returns exactly the written bytes. -/
theorem C1_sector_roundtrip (di : DiskImage) (t s : Nat) (data : List Nat)
    (hT : di.Tracks.length = 40)
    (hTr : ∀ tr ∈ di.Tracks, tr.length = 4608)
    (hA : di.allocation.length = 360)
    (ht : t < 40) (hs : s < 9) (hd : data.length = 512) :
    ∃ di', di.SetSectorData t s 0 data = (none, di') ∧
      di'.GetSectorData t s 0 = .ok data := by
  have htr : (di.Tracks.getD t []).length = 4608 := by
    rw [getD_lt _ _ _ (by omega)]
    exact hTr _ (List.getElem_mem (by omega))
  have hp360 : t * 9 + s < 360 := by omega
  have hidx : ∀ x : Nat, ((t : Int) + 0 * (x : Int)).toNat = t := by
    intro x; omega
  have hineq : ¬((t : Int) + 0 * (di.Header.TracksNum : Int) ≥
      (di.Tracks.length : Int)) := by
    rw [hT]; omega
  have hmod : (t * 4608 + s * 512) % (di.Tracks.getD t []).length =
      s * 512 := by
    rw [htr]; omega
  -- the updated image, for either state of the allocation bit
  have main : ∀ alloc1 : List Bool, alloc1.length = 360 →
      alloc1.getD (t * 9 + s) false = true →
      DiskImage.GetSectorData { di with
        allocation := alloc1,
        Tracks := di.Tracks.set t
          ((di.Tracks.getD t []).take (s * 512) ++ data ++
            (di.Tracks.getD t []).drop (s * 512 + 512)),
        Modified := true } t s 0 = .ok data := by
    intro alloc1 hlen1 hget1
    have hIs : IsSectorAllocated alloc1 (t * 9 + s) = .ok true := by
      unfold IsSectorAllocated
      rw [if_neg (by omega), hget1]
    have hlenset : (di.Tracks.set t
        ((di.Tracks.getD t []).take (s * 512) ++ data ++
          (di.Tracks.getD t []).drop (s * 512 + 512))).length =
        di.Tracks.length := List.length_set ..
    have hnewlen : ((di.Tracks.getD t []).take (s * 512) ++ data ++
        (di.Tracks.getD t []).drop (s * 512 + 512)).length = 4608 := by
      simp only [List.length_append, List.length_take, List.length_drop]
      omega
    have hgetset : (di.Tracks.set t
        ((di.Tracks.getD t []).take (s * 512) ++ data ++
          (di.Tracks.getD t []).drop (s * 512 + 512))).getD t [] =
        (di.Tracks.getD t []).take (s * 512) ++ data ++
          (di.Tracks.getD t []).drop (s * 512 + 512) := by
      rw [getD_lt _ _ _ (by rw [List.length_set]; omega)]
      exact List.getElem_set_self _
    simp only [DiskImage.GetSectorData, p2l_nat_ok t s ht hs,
      offset_nat_ok t s ht hs, Int.toNat_natCast, hIs, Bool.not_true,
      Bool.false_eq_true, if_false]
    rw [if_neg (by rw [hlenset, hT]; omega)]
    simp only [hidx, hgetset, hnewlen, BytesPerSector]
    rw [show (t * 4608 + s * 512) % 4608 = s * 512 by omega]
    rw [if_neg (by omega)]
    have hsplit : ((di.Tracks.getD t []).take (s * 512) ++ data ++
        (di.Tracks.getD t []).drop (s * 512 + 512)).drop (s * 512) =
        data ++ (di.Tracks.getD t []).drop (s * 512 + 512) := by
      rw [List.append_assoc]
      exact List.drop_left' (by rw [List.length_take]; omega)
    rw [hsplit, List.take_left' hd]
  rcases hb : di.allocation.getD (t * 9 + s) false with _ | _
  · -- sector not yet allocated: SetSectorData allocates it first
    refine ⟨_, ?_, main (setRange di.allocation (t * 9 + s) 1 true)
      (by rw [setRange_length, hA]) (getD_setRange_self _ _ (by omega))⟩
    simp only [DiskImage.SetSectorData, p2l_nat_ok t s ht hs,
      offset_nat_ok t s ht hs, Int.toNat_natCast, hb, hd, ne_eq,
      Bool.not_false, if_true, not_true, if_false,
      allocateSectors_one_ok di.allocation (t * 9 + s) hb (by omega)]
    rw [if_neg hineq]
    simp only [hidx, hmod, BytesPerSector]
    rw [if_neg (show ¬(s * 512 + 512 > (di.Tracks.getD t []).length) by
      rw [htr]; omega)]
    simp
  · -- sector already allocated: the bitmap is left alone
    refine ⟨_, ?_, main di.allocation hA hb⟩
    simp only [DiskImage.SetSectorData, p2l_nat_ok t s ht hs,
      offset_nat_ok t s ht hs, Int.toNat_natCast, hb, hd, ne_eq,
      Bool.not_true, Bool.false_eq_true, not_true, if_false]
    rw [if_neg hineq]
    simp only [hidx, hmod, BytesPerSector]
    rw [if_neg (show ¬(s * 512 + 512 > (di.Tracks.getD t []).length) by
      rw [htr]; omega)]
    simp

/-- Witness for C1 on the freshly created image at track 1, sector 2. -/
theorem C1_sector_roundtrip_witness :
    ∃ di', NewDiskImage.SetSectorData 1 2 0 (List.replicate 512 7) =
      (none, di') ∧ di'.GetSectorData 1 2 0 = .ok (List.replicate 512 7) :=
  C1_sector_roundtrip NewDiskImage 1 2 (List.replicate 512 7)
    (by rw [show NewDiskImage.Tracks =
          List.replicate 40 (List.replicate 4608 0) from rfl]
        simp only [List.length_replicate])
    (by intro tr htr
        rw [show NewDiskImage.Tracks =
          List.replicate 40 (List.replicate 4608 0) from rfl] at htr
        rw [List.eq_of_mem_replicate htr]
        simp only [List.length_replicate])
    (by rw [show NewDiskImage.allocation =
          List.replicate 360 false from rfl]
        simp only [List.length_replicate])
    (by decide) (by decide) (by simp only [List.length_replicate])

/-! ### Claim C9 — the validator accumulates violations -/

/-- C9: validation does not stop at the first structural violation — on
an image with both a bad signature and a wrong track count, the list
returned by `DiskCheck.Validate` (at either level) contains both
violations, hence at least two entries.  The nonempty-track hypothesis
rules out inputs on which the Go `%` in `GetSectorData` would panic
instead of returning a list. -/
theorem C9_validator_accumulates (di : DiskImage) (level : ValidationLevel)
    (_htracks : ∀ tr ∈ di.Tracks, tr ≠ ([] : List Nat))
    (hsig : di.Header.Signature.take 34 ≠ DSKSignature)
    (htrk : di.Header.TracksNum ≠ TracksPerSide) :
    CheckError.invalidSignature ∈ DiskCheckValidate di level ∧
    CheckError.invalidTrackCount di.Header.TracksNum ∈
      DiskCheckValidate di level ∧
    2 ≤ (DiskCheckValidate di level).length := by
  have h1 : CheckError.invalidSignature ∈ checkDiskHeader di := by
    unfold checkDiskHeader
    rw [if_pos hsig]
    simp
  have h2 : CheckError.invalidTrackCount di.Header.TracksNum ∈
      checkDiskHeader di := by
    unfold checkDiskHeader
    rw [if_pos hsig, if_pos htrk]
    simp
  have hlen : 2 ≤ (checkDiskHeader di).length := by
    unfold checkDiskHeader
    rw [if_pos hsig, if_pos htrk]
    simp only [List.length_append, List.length_cons, List.length_nil]
    omega
  refine ⟨?_, ?_, ?_⟩
  · unfold DiskCheckValidate
    exact List.mem_append_left _ (List.mem_append_left _
      (List.mem_append_left _ (List.mem_append_left _ h1)))
  · unfold DiskCheckValidate
    exact List.mem_append_left _ (List.mem_append_left _
      (List.mem_append_left _ (List.mem_append_left _ h2)))
  · unfold DiskCheckValidate
    simp only [List.length_append]
    omega

/-- A disk with a zeroed signature and 39 declared tracks, for the C9
witness. -/
def badDiskC9 : DiskImage :=
  { NewDiskImage with
      Header := { NewDiskImage.Header with
        Signature := List.replicate 34 0, TracksNum := 39 } }

/-- Witness for C9 on `badDiskC9` at the basic level. -/
theorem C9_validator_accumulates_witness :
    CheckError.invalidSignature ∈ DiskCheckValidate badDiskC9 .basic ∧
    CheckError.invalidTrackCount badDiskC9.Header.TracksNum ∈
      DiskCheckValidate badDiskC9 .basic ∧
    2 ≤ (DiskCheckValidate badDiskC9 .basic).length :=
  C9_validator_accumulates badDiskC9 .basic
    (by intro tr htr
        rw [show badDiskC9.Tracks =
          List.replicate 40 (List.replicate 4608 0) from rfl] at htr
        rw [List.eq_of_mem_replicate htr]
        intro hcon
        have hlen := congrArg List.length hcon
        simp only [List.length_replicate, List.length_nil] at hlen
        exact absurd hlen (by decide))
    (by decide) (by decide)

/-! ### Claims C7 and C10 — open-file handles -/

theorem openFinish_fields (di : DiskImage) (idx : Nat) (f : File)
    (di' : DiskImage) (h : openFinish di idx = .ok (f, di')) :
    f = { entryIndex := idx, header := none, blocks := [], position := 0,
          size := 0, readOnly := false, isHeadered := false } ∧
      di' = di := by
  unfold openFinish at h
  simp only [File.ReadAt, ge_iff_le, le_refl, if_true, reduceCtorEq,
    false_and, if_false, Except.ok.injEq, Prod.mk.injEq] at h
  exact ⟨h.1.symm, h.2.symm⟩

theorem openFile_handle_shape (di : DiskImage) (filename : List Nat)
    (createNew : Bool) (f : File) (di' : DiskImage)
    (h : di.OpenFile filename createNew = .ok (f, di')) :
    ∃ idx, f = { entryIndex := idx, header := none, blocks := [],
                 position := 0, size := 0, readOnly := false,
                 isHeadered := false } := by
  unfold DiskImage.OpenFile at h
  rcases hf : FindFile di.directory filename with e | ⟨entry, idx⟩
  · rw [hf] at h
    cases createNew
    · simp only [Bool.not_false, if_true] at h
      cases h
    · simp only [Bool.not_true, Bool.false_eq_true, if_false] at h
      rcases ha : AddFile di.directory filename with e2 | ⟨idx, dir2⟩
      · rw [ha] at h
        cases h
      · rw [ha] at h
        exact ⟨idx, (openFinish_fields _ idx f di' h).1⟩
  · rw [hf] at h
    exact ⟨idx, (openFinish_fields di idx f di' h).1⟩

/-- C7: `OpenFile` can never detect a PLUS3DOS header: the handle's
`size` and `blocks` are left at their zero values instead of being
loaded from the directory entry, so the header probe hits EOF at once
and every handle comes back unheadered with the cursor at 0 — even for
a file whose stored content begins with a valid 128-byte header. -/
theorem C7_open_always_unheadered (di : DiskImage) (filename : List Nat)
    (createNew : Bool) (f : File) (di' : DiskImage)
    (h : di.OpenFile filename createNew = .ok (f, di')) :
    f.isHeadered = false ∧ f.position = 0 ∧ f.size = 0 ∧ f.blocks = [] ∧
      f.header = none := by
  obtain ⟨idx, hf⟩ := openFile_handle_shape di filename createNew f di' h
  subst hf
  exact ⟨rfl, rfl, rfl, rfl, rfl⟩

/-- A fresh image whose directory holds one live entry named `A`, for the
C7 witness. -/
def diskWithA : DiskImage :=
  { NewDiskImage with
      directory := NewDiskImage.directory.set 0
        { emptyDirectoryEntry with
            Status := 1,
            Name := [65, 32, 32, 32, 32, 32, 32, 32],
            Extension := [32, 32, 32] } }

/-- Witness for C7: opening the existing file `A` (not creating it)
yields an unheadered handle at position 0. -/
theorem C7_open_always_unheadered_witness :
    ∃ f di', diskWithA.OpenFile [65] false = .ok (f, di') ∧
      f.isHeadered = false ∧ f.position = 0 ∧ f.size = 0 := by
  have hopen : diskWithA.OpenFile [65] false = .ok
      (({ entryIndex := 0, header := none, blocks := [], position := 0,
          size := 0, readOnly := false, isHeadered := false } : File),
        diskWithA) := rfl
  obtain ⟨h1, h2, h3, _, _⟩ :=
    C7_open_always_unheadered diskWithA [65] false _ _ hopen
  exact ⟨_, _, hopen, h1, h2, h3⟩

theorem p2l_err_shape (sm : SectorMap) (t s sd : Int) (e : GoErr)
    (h : sm.PhysicalToLinear t s sd = .error e) : e ≠ .fileReadOnly := by
  unfold SectorMap.PhysicalToLinear at h
  split_ifs at h <;>
    first
    | (rw [Except.error.injEq] at h; subst h; simp)
    | exact absurd h (by simp)

theorem trackOffset_err_shape (sm : SectorMap) (t sd : Int) (e : GoErr)
    (h : sm.GetTrackOffset t sd = .error e) : e ≠ .fileReadOnly := by
  unfold SectorMap.GetTrackOffset at h
  split_ifs at h <;>
    first
    | (rw [Except.error.injEq] at h; subst h; simp)
    | exact absurd h (by simp)

theorem sectorOffset_err_shape (sm : SectorMap) (t s sd : Int) (e : GoErr)
    (h : sm.GetSectorOffset t s sd = .error e) : e ≠ .fileReadOnly := by
  rcases hto : sm.GetTrackOffset t sd with e2 | off
  · simp only [SectorMap.GetSectorOffset, hto, Except.error.injEq] at h
    subst h
    exact trackOffset_err_shape sm t sd _ hto
  · simp only [SectorMap.GetSectorOffset, hto] at h
    split_ifs at h <;>
      first
      | (rw [Except.error.injEq] at h; subst h; simp)
      | exact absurd h (by simp)

theorem allocateSectors_err_shape (a : List Bool) (st c : Nat) (e : GoErr)
    (a1 : List Bool) (h : AllocateSectors a st c = (some e, a1)) :
    e ≠ .fileReadOnly := by
  unfold AllocateSectors at h
  split_ifs at h
  · rw [Prod.mk.injEq, Option.some.injEq] at h
    rw [← h.1]; simp
  · rcases hfa : firstAllocatedInRange a st c with _ | i
    · rw [hfa] at h
      exact absurd h (by simp)
    · rw [hfa] at h
      rw [Prod.mk.injEq, Option.some.injEq] at h
      rw [← h.1]; simp

theorem setSectorData_err_shape (di : DiskImage) (t s sd : Int)
    (data : List Nat) (e : GoErr) (di2 : DiskImage)
    (h : di.SetSectorData t s sd data = (some e, di2)) :
    e ≠ .fileReadOnly := by
  rcases hp : NewSectorMap.PhysicalToLinear t s sd with e2 | lin
  · simp only [DiskImage.SetSectorData, hp] at h
    split_ifs at h <;> rw [Prod.mk.injEq, Option.some.injEq] at h
    · rw [← h.1]; simp
    · rw [← h.1]
      exact p2l_err_shape _ t s sd _ hp
  · rcases ho : NewSectorMap.GetSectorOffset t s sd with e3 | off
    · simp only [DiskImage.SetSectorData, hp, ho] at h
      split_ifs at h <;> rw [Prod.mk.injEq, Option.some.injEq] at h
      · rw [← h.1]; simp
      · rw [← h.1]
        exact sectorOffset_err_shape _ t s sd _ ho
    · rcases hstep : (if !(di.allocation.getD lin.toNat false) then
          AllocateSectors di.allocation lin.toNat 1
        else (none, di.allocation)) with ⟨e4, a1⟩
      rcases e4 with _ | e4
      · simp only [DiskImage.SetSectorData, hp, ho, hstep] at h
        split_ifs at h <;>
          first
          | (rw [Prod.mk.injEq, Option.some.injEq] at h
             rw [← h.1]; simp)
          | exact absurd h (by simp)
      · simp only [DiskImage.SetSectorData, hp, ho, hstep] at h
        split_ifs at h <;> rw [Prod.mk.injEq, Option.some.injEq] at h <;>
          rw [← h.1]
        · simp
        · split_ifs at hstep
          · exact allocateSectors_err_shape di.allocation lin.toNat 1 e4 a1
              hstep
          · exact absurd hstep (by simp)

theorem writeLoop_err_shape_aux (n : Nat) :
    ∀ (f : File) (di : DiskImage) (off : Nat) (p : List Nat)
      (written : Nat), p.length - written ≤ n → ∀ e,
      (writeLoop f di off p written).2.2 = some e → e ≠ .fileReadOnly := by
  induction n with
  | zero =>
    intro f di off p written hle e h
    rw [writeLoop] at h
    rw [dif_neg (by omega)] at h
    exact absurd h (by simp)
  | succ n ih =>
    intro f di off p written hle e h
    rw [writeLoop] at h
    by_cases hw : written < p.length
    · rw [dif_pos hw] at h
      split_ifs at h
      case _ =>
        rcases hset : di.SetSectorData
            (((di.blockMap.getD (f.blocks.getD ((off + written) / BlockSize) 0)
                0 + (off + written) % BlockSize / BytesPerSector) /
              SectorsPerTrack : Nat))
            (((di.blockMap.getD (f.blocks.getD ((off + written) / BlockSize) 0)
                0 + (off + written) % BlockSize / BytesPerSector) %
              SectorsPerTrack : Nat))
            0
            ((p.drop written).take (min (p.length - written)
              (BlockSize - (off + written) % BlockSize))) with ⟨e2, di2⟩
        rw [hset] at h
        rcases e2 with _ | e2
        · simp only at h
          refine ih f di2 off p _ ?_ e h
          have hmin : 1 ≤ min (p.length - written)
              (BlockSize - (off + written) % BlockSize) := by
            have : (off + written) % BlockSize < BlockSize :=
              Nat.mod_lt _ (by decide)
            simp only [BlockSize] at *
            omega
          omega
        · simp only [Option.some.injEq] at h
          subst h
          exact setSectorData_err_shape di _ _ 0 _ e2 di2 hset
    · rw [dif_neg hw] at h
      exact absurd h (by simp)

theorem writeLoop_err_shape (f : File) (di : DiskImage) (off : Nat)
    (p : List Nat) (written : Nat) (e : GoErr)
    (h : (writeLoop f di off p written).2.2 = some e) : e ≠ .fileReadOnly :=
  writeLoop_err_shape_aux (p.length - written) f di off p written (by omega)
    e h

theorem writeAt_step_shape (f : File) (di : DiskImage) (endPos : Nat)
    (o : Option GoErr) (f2 : File) (di2 : DiskImage)
    (h : (if endPos > f.size then
        if (endPos + BlockSize - 1) / BlockSize > f.blocks.length then
          match di.fileAlloc.AllocateFileSpace (endPos - f.size) with
          | (.error e, fa2) =>
            (some (GoErr.allocFailed e), f, di.withFileAlloc fa2)
          | (.ok newBlocks, fa2) =>
            (none, { f with blocks := f.blocks ++ newBlocks, size := endPos },
              di.withFileAlloc fa2)
        else (none, { f with size := endPos }, di)
      else (none, f, di)) = (o, f2, di2)) :
    f2.readOnly = f.readOnly ∧ (∀ e, o = some e → e ≠ .fileReadOnly) := by
  split_ifs at h
  · rcases halloc : di.fileAlloc.AllocateFileSpace (endPos - f.size) with
      ⟨res, fa2⟩
    rw [halloc] at h
    rcases res with e | newBlocks
    · simp only [Prod.mk.injEq] at h
      refine ⟨by rw [← h.2.1], ?_⟩
      intro e2 ho
      rw [← h.1, Option.some.injEq] at ho
      rw [← ho]
      simp
    · simp only [Prod.mk.injEq] at h
      refine ⟨by rw [← h.2.1], ?_⟩
      intro e2 ho
      rw [← h.1] at ho
      exact absurd ho (by simp)
  · simp only [Prod.mk.injEq] at h
    refine ⟨by rw [← h.2.1], ?_⟩
    intro e2 ho
    rw [← h.1] at ho
    exact absurd ho (by simp)
  · simp only [Prod.mk.injEq] at h
    refine ⟨by rw [← h.2.1], ?_⟩
    intro e2 ho
    rw [← h.1] at ho
    exact absurd ho (by simp)

theorem writeLoop_result_shape (f : File) (di : DiskImage) (off : Nat)
    (p : List Nat) (written : Nat) :
    ∀ e, (writeLoop f di off p written).2.2 = some e →
      e ≠ .fileReadOnly :=
  fun e h => writeLoop_err_shape f di off p written e h

theorem writeAt_shape (f : File) (di : DiskImage) (p : List Nat)
    (off : Nat) :
    ((f.WriteAt di p off).2.2.1).readOnly = f.readOnly ∧
    (f.readOnly = false → ∀ e, (f.WriteAt di p off).2.1 = some e →
      e ≠ .fileReadOnly) := by
  unfold File.WriteAt
  by_cases hro : f.readOnly = true
  · rw [if_pos hro]
    refine ⟨rfl, ?_⟩
    intro hfalse
    rw [hro] at hfalse
    exact absurd hfalse (by simp)
  · rw [if_neg hro]
    dsimp only
    split
    next e f2 di2 heq =>
      obtain ⟨hpres, herr⟩ := writeAt_step_shape f di (off + p.length)
        (some e) f2 di2 heq
      refine ⟨hpres, fun _ e2 h2 => ?_⟩
      simp only [Option.some.injEq] at h2
      rw [← h2]
      exact herr e rfl
    next f2 di2 heq =>
      obtain ⟨hpres, _⟩ := writeAt_step_shape f di (off + p.length)
        none f2 di2 heq
      split
      next w di3 e2 hloop =>
        refine ⟨hpres, fun _ e3 h2 => ?_⟩
        simp only [Option.some.injEq] at h2
        rw [← h2]
        exact writeLoop_err_shape f2 di2 off p 0 e2 (by rw [hloop])
      next w di3 hloop =>
        refine ⟨hpres, fun _ e3 h2 => ?_⟩
        exact absurd h2 (by simp)

theorem writeAt_pres (g : File) (di : DiskImage) (p : List Nat)
    (off n : Nat) (o : Option GoErr) (f3 : File) (di3 : DiskImage)
    (heq : g.WriteAt di p off = (n, o, f3, di3)) :
    f3.readOnly = g.readOnly := by
  have h3 := (writeAt_shape g di p off).1
  rw [heq] at h3
  exact h3

theorem write_shape (f : File) (di : DiskImage) (p : List Nat) :
    ((f.Write di p).2.2.1).readOnly = f.readOnly ∧
    (f.readOnly = false → ∀ e, (f.Write di p).2.1 = some e →
      e ≠ .fileReadOnly) := by
  unfold File.Write
  by_cases hro : f.readOnly = true
  · rw [if_pos hro]
    refine ⟨rfl, ?_⟩
    intro hfalse
    rw [hro] at hfalse
    exact absurd hfalse (by simp)
  · rw [if_neg hro]
    exact writeAt_shape f di p f.position

theorem read_preserves_readOnly (f : File) (di : DiskImage) (p : List Nat) :
    ((f.Read di p).2.2.2).readOnly = f.readOnly := by
  unfold File.Read
  split
  next n p2 e heq => rfl

theorem seek_preserves_readOnly (f : File) (offset : Int) (whence : Nat) :
    ((f.Seek offset whence).2).readOnly = f.readOnly := by
  unfold File.Seek
  split
  next e heq => rfl
  next abs heq =>
    split
    next habs => rfl
    next habs => rfl

theorem close_step_readOnly (f : File) (di : DiskImage) (o : Option GoErr)
    (f2 : File) (di2 : DiskImage)
    (h : (if f.isHeadered then
        match f.header with
        | none => (some GoErr.nilHeader, f, di)
        | some hd =>
          match File.WriteAt
              { f with header := some (Plus3DosHeader.UpdateChecksum
                  { hd with FileLength := f.size % 4294967296 }) }
              di
              (Plus3DosHeader.UpdateChecksum
                { hd with FileLength := f.size % 4294967296 }).toBytes 0 with
          | (_, some e, f3, di3) => (some (GoErr.writeHeaderFailed e), f3, di3)
          | (_, none, f3, di3) => (none, f3, di3)
      else (none, f, di)) = (o, f2, di2)) :
    f2.readOnly = f.readOnly := by
  by_cases hh : f.isHeadered = true
  · rw [if_pos hh] at h
    rcases hdr : f.header with _ | hd
    · simp only [hdr, Prod.mk.injEq] at h
      rw [← h.2.1]
    · simp only [hdr] at h
      split at h
      next n e f3 di3 heq =>
        simp only [Prod.mk.injEq] at h
        rw [← h.2.1]
        exact (writeAt_pres _ di _ 0 n (some e) f3 di3 heq).trans rfl
      next n f3 di3 heq =>
        simp only [Prod.mk.injEq] at h
        rw [← h.2.1]
        exact (writeAt_pres _ di _ 0 n none f3 di3 heq).trans rfl
  · rw [if_neg hh] at h
    simp only [Prod.mk.injEq] at h
    rw [← h.2.1]

theorem close_preserves_readOnly (f : File) (di : DiskImage) :
    ((f.Close di).2.1).readOnly = f.readOnly := by
  unfold File.Close
  by_cases hro : f.readOnly = true
  · rw [if_pos hro]
  · rw [if_neg hro]
    split
    next e f2 di2 heq =>
      exact close_step_readOnly f di (some e) f2 di2 heq
    next f2 di2 heq =>
      exact close_step_readOnly f di none f2 di2 heq

/-- The handle `OpenFile` builds for entry 0 of a fresh image (C10
witness input). -/
def fC10 : File :=
  { entryIndex := 0, header := none, blocks := [], position := 0,
    size := 0, readOnly := false, isHeadered := false }

/-- Allocator state after the one-block allocation the C10 witness
write triggers. -/
def d2faC10 : FileAllocation := (NewDiskImage.fileAlloc.AllocateFileSpace 1).2

/-- The handle after `WriteAt` extends it by one block (C10 witness). -/
def f2C10 : File :=
  { entryIndex := 0, header := none, blocks := [3], position := 0,
    size := 1, readOnly := false, isHeadered := false }

/-- The image after that allocation (C10 witness). -/
def d2C10 : DiskImage := NewDiskImage.withFileAlloc d2faC10

theorem allocC10 : NewDiskImage.fileAlloc.AllocateFileSpace
    (0 + List.length [7] - fC10.size) = (Except.ok [3], d2faC10) := by
  rw [Prod.ext_iff]
  exact ⟨by decide, rfl⟩

theorem hwaC10 : (fC10.WriteAt NewDiskImage [7] 0).2.1 =
    some GoErr.invalidSectorDataSize := by
  unfold File.WriteAt
  rw [if_neg (show ¬fC10.readOnly = true by decide)]
  dsimp only
  have hstep : (if 0 + List.length [7] > fC10.size then
      if (0 + List.length [7] + BlockSize - 1) / BlockSize >
          fC10.blocks.length then
        match NewDiskImage.fileAlloc.AllocateFileSpace
            (0 + List.length [7] - fC10.size) with
        | (.error e, fa2) =>
          (some (GoErr.allocFailed e), fC10, NewDiskImage.withFileAlloc fa2)
        | (.ok newBlocks, fa2) =>
          (none,
            { fC10 with
                blocks := fC10.blocks ++ newBlocks
                size := 0 + List.length [7] },
            NewDiskImage.withFileAlloc fa2)
      else (none, { fC10 with size := 0 + List.length [7] }, NewDiskImage)
    else (none, fC10, NewDiskImage)) =
      ((none : Option GoErr), f2C10, d2C10) := by
    rw [if_pos (by decide), if_pos (by decide), allocC10]
    rfl
  simp only [hstep]
  rw [writeLoop.eq_def]
  decide

theorem hwC10 : (fC10.Write NewDiskImage [7]).2.1 =
    some GoErr.invalidSectorDataSize := by
  unfold File.Write
  rw [if_neg (show ¬fC10.readOnly = true by decide)]
  exact hwaC10

/-- C10: every handle `OpenFile` returns has `readOnly = false`; none of
the `File` operations (`WriteAt`, `Write`, `Read`, `Seek`, `Close`) ever
changes the flag; and on any handle with the flag clear — hence on every
handle obtained through `OpenFile` — `Write` and `WriteAt` can never
return the read-only error, even when the directory entry's read-only
attribute bit is set: the flag is simply never loaded from the entry. -/
theorem C10_no_readonly_enforcement :
    (∀ (di : DiskImage) (filename : List Nat) (createNew : Bool)
        (f : File) (di2 : DiskImage),
      di.OpenFile filename createNew = .ok (f, di2) →
        f.readOnly = false) ∧
    (∀ (f : File) (di : DiskImage) (p : List Nat) (off : Nat),
      ((f.WriteAt di p off).2.2.1).readOnly = f.readOnly) ∧
    (∀ (f : File) (di : DiskImage) (p : List Nat),
      ((f.Write di p).2.2.1).readOnly = f.readOnly) ∧
    (∀ (f : File) (di : DiskImage) (p : List Nat),
      ((f.Read di p).2.2.2).readOnly = f.readOnly) ∧
    (∀ (f : File) (offset : Int) (whence : Nat),
      ((f.Seek offset whence).2).readOnly = f.readOnly) ∧
    (∀ (f : File) (di : DiskImage),
      ((f.Close di).2.1).readOnly = f.readOnly) ∧
    (∀ (f : File) (di : DiskImage) (p : List Nat) (off : Nat),
      f.readOnly = false → ∀ e, (f.WriteAt di p off).2.1 = some e →
        e ≠ .fileReadOnly) ∧
    (∀ (f : File) (di : DiskImage) (p : List Nat),
      f.readOnly = false → ∀ e, (f.Write di p).2.1 = some e →
        e ≠ .fileReadOnly) := by
  refine ⟨?_, ?_, ?_, ?_, ?_, ?_, ?_, ?_⟩
  · intro di filename createNew f di2 h
    obtain ⟨idx, hf⟩ := openFile_handle_shape di filename createNew f di2 h
    rw [hf]
  · intro f di p off
    exact (writeAt_shape f di p off).1
  · intro f di p
    exact (write_shape f di p).1
  · intro f di p
    exact read_preserves_readOnly f di p
  · intro f offset whence
    exact seek_preserves_readOnly f offset whence
  · intro f di
    exact close_preserves_readOnly f di
  · intro f di p off hro
    exact (writeAt_shape f di p off).2 hro
  · intro f di p hro
    exact (write_shape f di p).2 hro

/-- Witness for C10: the handle for the existing file `A` comes back with
`readOnly = false`; a 1-byte `WriteAt`/`Write` on a fresh-image handle
fails with `invalidSectorDataSize` — never the read-only error — and
`Write`/`Seek` leave the flag clear. -/
theorem C10_no_readonly_enforcement_witness :
    diskWithA.OpenFile [65] false = .ok (fC10, diskWithA) ∧
    fC10.readOnly = false ∧
    (fC10.WriteAt NewDiskImage [7] 0).2.1 =
      some GoErr.invalidSectorDataSize ∧
    GoErr.invalidSectorDataSize ≠ GoErr.fileReadOnly ∧
    ((fC10.Write NewDiskImage [7]).2.2.1).readOnly = false ∧
    ((fC10.Seek 5 0).2).readOnly = false := by
  have hopen : diskWithA.OpenFile [65] false = .ok (fC10, diskWithA) := rfl
  obtain ⟨h1, h2, h3, h4, h5, h6, h7, h8⟩ := C10_no_readonly_enforcement
  have hro : fC10.readOnly = false :=
    h1 diskWithA [65] false fC10 diskWithA hopen
  refine ⟨hopen, hro, hwaC10, ?_, ?_, ?_⟩
  · exact h7 fC10 NewDiskImage [7] 0 hro GoErr.invalidSectorDataSize hwaC10
  · exact (h3 fC10 NewDiskImage [7]).trans hro
  · exact (h5 fC10 5 0).trans hro

theorem take_set_comm (l : List Nat) (i n v : Nat) :
    (l.set i v).take n = (l.take n).set i v := by
  induction l generalizing i n with
  | nil => simp
  | cons a t ih =>
    cases i with
    | zero =>
      cases n with
      | zero => simp
      | succ m => simp [List.set, List.take]
    | succ j =>
      cases n with
      | zero => simp
      | succ m => simp [List.set, List.take, ih]

theorem getD_take (l : List Nat) (i n d : Nat) (h : i < n) :
    (l.take n).getD i d = l.getD i d := by
  induction l generalizing i n with
  | nil => simp
  | cons a t ih =>
    cases n with
    | zero => omega
    | succ m =>
      cases i with
      | zero => simp [List.getD]
      | succ j => simpa [List.getD] using ih j m (by omega)

theorem getD_set_gen {α : Type} (d : α) (a : List α) (j i : Nat) (v : α) :
    (a.set j v).getD i d =
      if j = i ∧ j < a.length then v else a.getD i d := by
  by_cases h1 : j = i
  · subst h1
    by_cases h2 : j < a.length
    · simp [List.getD_eq_getElem?_getD, List.getElem?_set, h2]
    · have hn : a[j]? = none := List.getElem?_eq_none (by omega)
      simp [List.getD_eq_getElem?_getD, List.getElem?_set, h2, hn]
  · simp [List.getD_eq_getElem?_getD, List.getElem?_set, h1]

theorem sum_set (l : List Nat) (i v : Nat) (h : i < l.length) :
    (l.set i v).sum + l.getD i 0 = l.sum + v := by
  induction l generalizing i with
  | nil => simp at h
  | cons a t ih =>
    cases i with
    | zero =>
      simp [List.getD]
      omega
    | succ j =>
      have hj := ih j (by simpa using h)
      simp [List.getD] at hj ⊢
      omega

theorem getD_bound (l : List Nat) (hm : ∀ x ∈ l, x < 256) (j : Nat) :
    l.getD j 0 < 256 := by
  by_cases hj : j < l.length
  · rw [getD_lt 0 l j hj]
    exact hm _ (List.getElem_mem hj)
  · rw [List.getD_eq_default l 0 (by omega)]
    omega

theorem le32_de32 (a b c d : Nat) (ha : a < 256) (hb : b < 256)
    (hc : c < 256) (hd : d < 256) :
    le32Bytes (de32 a b c d) = [a, b, c, d] := by
  unfold le32Bytes de32
  simp only [List.cons.injEq, and_true]
  refine ⟨by omega, by omega, by omega, by omega⟩

theorem drop_cons (l : List Nat) (n : Nat) (h : n < l.length) :
    l.drop n = l.getD n 0 :: l.drop (n + 1) := by
  rw [getD_lt 0 l n h]
  exact List.drop_eq_getElem_cons h

theorem headerBytes_decomp (data : List Nat) (h : data.length = 128) :
    data = data.take 8 ++ data.getD 8 0 :: data.getD 9 0 :: data.getD 10 0 ::
      data.getD 11 0 :: data.getD 12 0 :: data.getD 13 0 :: data.getD 14 0 ::
      ((data.drop 15).take 8 ++ ((data.drop 23).take 104 ++
        [data.getD 127 0])) := by
  conv_lhs => rw [← List.take_append_drop 8 data]
  congr 1
  rw [drop_cons data 8 (by omega)]
  congr 1
  rw [drop_cons data 9 (by omega)]
  congr 1
  rw [drop_cons data 10 (by omega)]
  congr 1
  rw [drop_cons data 11 (by omega)]
  congr 1
  rw [drop_cons data 12 (by omega)]
  congr 1
  rw [drop_cons data 13 (by omega)]
  congr 1
  rw [drop_cons data 14 (by omega)]
  congr 1
  conv_lhs => rw [← List.take_append_drop 8 (data.drop 15)]
  congr 1
  rw [List.drop_drop]
  rw [show (8 + 15 : Nat) = 23 from rfl]
  conv_lhs => rw [← List.take_append_drop 104 (data.drop 23)]
  congr 1
  rw [List.drop_drop]
  rw [show (104 + 23 : Nat) = 127 from rfl]
  rw [drop_cons data 127 (by omega)]
  rw [List.drop_eq_nil_of_le (by omega)]

theorem toBytes_take127 (h : Plus3DosHeader) (h5 : h.Signature.length = 8)
    (h6 : h.HeaderData.length = 8) (h7 : h.Reserved.length = 104) :
    h.toBytes.take 127 = h.Signature ++ [h.SoftEOF, h.Issue, h.Version] ++
      le32Bytes h.FileLength ++ h.HeaderData ++ h.Reserved := by
  unfold Plus3DosHeader.toBytes
  exact List.take_left' (by simp [le32Bytes, h5, h6, h7])

theorem toBytes_length (h : Plus3DosHeader) (h5 : h.Signature.length = 8)
    (h6 : h.HeaderData.length = 8) (h7 : h.Reserved.length = 104) :
    h.toBytes.length = 128 := by
  simp [Plus3DosHeader.toBytes, le32Bytes, h5, h6, h7]

theorem toBytes_getD_last (h : Plus3DosHeader)
    (hl : h.toBytes.length = 128) : h.toBytes.getD 127 0 = h.Checksum := by
  unfold Plus3DosHeader.toBytes at hl ⊢
  have hpre : (h.Signature ++ [h.SoftEOF, h.Issue, h.Version] ++
      le32Bytes h.FileLength ++ h.HeaderData ++ h.Reserved).length = 127 := by
    simp [le32Bytes] at hl ⊢
    omega
  rw [List.getD_append_right _ _ _ _ (by omega)]
  rw [show 127 - (h.Signature ++ [h.SoftEOF, h.Issue, h.Version] ++
      le32Bytes h.FileLength ++ h.HeaderData ++ h.Reserved).length = 0 from by
    omega]
  rfl

theorem validate_ok_of (h : Plus3DosHeader)
    (h1 : h.Signature = HeaderSignature) (h2 : h.SoftEOF = HeaderSoftEOF)
    (h3 : h.Issue = HeaderIssue) (h4 : h.Version ≤ 1)
    (h5 : h.HeaderData.getD 0 0 ≤ 3) (h6 : h.verifyChecksum = true) :
    h.Validate = .ok () := by
  unfold Plus3DosHeader.Validate
  rw [if_neg (by simp [h1]), if_neg (by simp [h2]), if_neg (by simp [h3]),
    if_neg (show ¬h.Version > HeaderVersion by
      show ¬h.Version > 1
      omega),
    if_neg (show ¬h.HeaderData.getD 0 0 > FileTypeCode by
      show ¬h.HeaderData.getD 0 0 > 3
      omega),
    if_neg (by simp [h6])]

theorem validate_ok_checksum (h : Plus3DosHeader)
    (hv : h.Validate = .ok ()) : h.verifyChecksum = true := by
  unfold Plus3DosHeader.Validate at hv
  split_ifs at hv with a1 a2 a3 a4 a5 a6
  exact a6

theorem fromBytes_roundtrip (data : List Nat) (hlen : data.length = 128)
    (hball : ∀ x ∈ data, x < 256) (h2 : Plus3DosHeader)
    (hp : Plus3DosHeader.FromBytes data = .ok h2) : h2.toBytes = data := by
  unfold Plus3DosHeader.FromBytes at hp
  rw [if_neg (by simp [hlen, HeaderSize])] at hp
  rw [Except.ok.injEq] at hp
  subst hp
  unfold Plus3DosHeader.toBytes
  dsimp only
  rw [le32_de32 _ _ _ _ (getD_bound data hball 11) (getD_bound data hball 12)
    (getD_bound data hball 13) (getD_bound data hball 14)]
  conv_rhs => rw [headerBytes_decomp data hlen]
  simp [List.append_assoc]

theorem checksum_fragile (data : List Nat) (hlen : data.length = 128)
    (hcs : (data.take 127).sum % 256 = data.getD 127 0)
    (i v : Nat) (hi : i < 128) (hv : v < 256) (hne : v ≠ data.getD i 0)
    (hball : ∀ x ∈ data, x < 256) (h2 : Plus3DosHeader)
    (ht : h2.toBytes = data.set i v) : h2.verifyChecksum = false := by
  have hl2 : h2.toBytes.length = 128 := by rw [ht]; simp [hlen]
  have hck : h2.toBytes.getD 127 0 = h2.Checksum := toBytes_getD_last h2 hl2
  rw [ht] at hck
  unfold Plus3DosHeader.verifyChecksum
  rw [ht, ← hck]
  have hold : data.getD i 0 < 256 := getD_bound data hball i
  by_cases hi7 : i < 127
  · rw [take_set_comm]
    have hlt : (data.take 127).length = 127 := by simp [hlen]
    have hsum := sum_set (data.take 127) i v (by omega)
    have hgt : (data.take 127).getD i 0 = data.getD i 0 :=
      getD_take data i 127 0 hi7
    have h127 : (data.set i v).getD 127 0 = data.getD 127 0 := by
      rw [getD_set_gen]
      rw [if_neg (show ¬(i = 127 ∧ i < data.length) by omega)]
    rw [h127]
    simp only [beq_eq_false_iff_ne, ne_eq]
    intro hEq
    rw [hgt] at hsum
    omega
  · have hi127 : i = 127 := by omega
    subst hi127
    rw [take_set_comm, List.set_eq_of_length_le (by simp [hlen])]
    have h127 : (data.set 127 v).getD 127 0 = v := by
      rw [getD_set_gen]
      rw [if_pos ⟨rfl, by omega⟩]
    rw [h127]
    simp only [beq_eq_false_iff_ne, ne_eq]
    intro hEq
    omega

theorem goodHeader_spec (hb : Plus3DosHeader)
    (hSig : hb.Signature = HeaderSignature)
    (hEOF : hb.SoftEOF = HeaderSoftEOF)
    (hIss : hb.Issue = HeaderIssue)
    (hVer : hb.Version = HeaderVersion)
    (hHDl : hb.HeaderData.length = 8)
    (hRes : hb.Reserved = List.replicate 104 0)
    (hft : hb.HeaderData.getD 0 0 ≤ 3)
    (hHDb : ∀ x ∈ hb.HeaderData, x < 256) :
    hb.UpdateChecksum.Validate = .ok () ∧
    ∀ i v, i < HeaderSize → v < 256 →
      v ≠ hb.UpdateChecksum.toBytes.getD i 0 →
      ∀ h2, Plus3DosHeader.FromBytes (hb.UpdateChecksum.toBytes.set i v) =
          .ok h2 → ∃ e, h2.Validate = .error e := by
  have hSl : hb.Signature.length = 8 := by rw [hSig]; rfl
  have hRl : hb.Reserved.length = 104 := by rw [hRes]; simp
  have htake : hb.UpdateChecksum.toBytes.take 127 = hb.toBytes.take 127 := by
    rw [toBytes_take127 hb.UpdateChecksum hSl hHDl hRl,
      toBytes_take127 hb hSl hHDl hRl]
    rfl
  have hvcU : hb.UpdateChecksum.verifyChecksum = true := by
    unfold Plus3DosHeader.verifyChecksum
    rw [htake]
    show ((hb.toBytes.take 127).sum % 256 ==
      (hb.toBytes.take 127).sum % 256) = true
    exact beq_self_eq_true _
  have hvalid : hb.UpdateChecksum.Validate = .ok () :=
    validate_ok_of hb.UpdateChecksum hSig hEOF hIss (by
        show hb.Version ≤ 1
        rw [hVer]
        decide) (by
        show hb.HeaderData.getD 0 0 ≤ 3
        exact hft) hvcU
  refine ⟨hvalid, ?_⟩
  intro i v hi hv hne h2 hp
  have hdl : hb.UpdateChecksum.toBytes.length = 128 :=
    toBytes_length hb.UpdateChecksum hSl hHDl hRl
  have hmem : ∀ x ∈ hb.UpdateChecksum.toBytes, x < 256 := by
    intro x hx
    unfold Plus3DosHeader.toBytes at hx
    simp only [List.mem_append, List.mem_cons, List.not_mem_nil,
      or_false] at hx
    rcases hx with ((((hx | hx) | hx) | hx) | hx) | hx
    · have hs : hb.UpdateChecksum.Signature = HeaderSignature := hSig
      rw [hs] at hx
      simp only [HeaderSignature, List.mem_cons, List.not_mem_nil,
        or_false] at hx
      rcases hx with rfl | rfl | rfl | rfl | rfl | rfl | rfl | rfl <;> omega
    · have e1 : hb.UpdateChecksum.SoftEOF = 26 := hEOF
      have e2 : hb.UpdateChecksum.Issue = 1 := hIss
      have e3 : hb.UpdateChecksum.Version = 1 := hVer
      rcases hx with rfl | rfl | rfl
      · rw [e1]; omega
      · rw [e2]; omega
      · rw [e3]; omega
    · simp only [le32Bytes, List.mem_cons, List.not_mem_nil, or_false] at hx
      rcases hx with rfl | rfl | rfl | rfl <;> omega
    · exact hHDb x hx
    · have hr : hb.UpdateChecksum.Reserved = List.replicate 104 0 := hRes
      rw [hr] at hx
      rw [List.eq_of_mem_replicate hx]
      omega
    · rcases hx with rfl
      show (hb.toBytes.take 127).sum % 256 < 256
      omega
  have hrt : h2.toBytes = hb.UpdateChecksum.toBytes.set i v :=
    fromBytes_roundtrip _ (by rw [List.length_set]; exact hdl)
      (by
        intro x hx
        rcases List.mem_or_eq_of_mem_set hx with h | rfl
        · exact hmem x h
        · exact hv) h2 hp
  have hcs : (hb.UpdateChecksum.toBytes.take 127).sum % 256 =
      hb.UpdateChecksum.toBytes.getD 127 0 := by
    rw [toBytes_getD_last hb.UpdateChecksum hdl]
    have := hvcU
    unfold Plus3DosHeader.verifyChecksum at this
    simpa [beq_iff_eq] using this
  have hfrag : h2.verifyChecksum = false :=
    checksum_fragile hb.UpdateChecksum.toBytes hdl hcs i v
      (by simpa [HeaderSize] using hi) hv hne hmem h2 hrt
  rcases hval : h2.Validate with e | u
  · exact ⟨e, rfl⟩
  · exfalso
    cases u
    have := validate_ok_checksum h2 hval
    rw [this] at hfrag
    exact absurd hfrag (by simp)

/-- C5: a header built by `NewPlus3DosHeader`, configured with
`SetBasicHeader` for any of the four known file-type codes, and finalized
with `UpdateChecksum` passes `Validate`; and changing any single one of
its 128 serialized bytes without recomputing the checksum yields a header
that `Validate` rejects (the stored checksum must equal the sum of bytes
0..126 modulo 256). -/
theorem C5_header_checksum (ft len p1 p2 : Nat) (hft : ft ≤ FileTypeCode) :
    ∃ hb, NewPlus3DosHeader.SetBasicHeader ft len p1 p2 = .ok hb ∧
      hb.UpdateChecksum.Validate = .ok () ∧
      ∀ i v, i < HeaderSize → v < 256 →
        v ≠ hb.UpdateChecksum.toBytes.getD i 0 →
        ∀ h2, Plus3DosHeader.FromBytes
            (hb.UpdateChecksum.toBytes.set i v) = .ok h2 →
          ∃ e, h2.Validate = .error e := by
  have hft3 : ft ≤ 3 := hft
  interval_cases ft
  · refine ⟨_, rfl, goodHeader_spec _ rfl rfl rfl rfl rfl rfl ?_ ?_⟩
    · show (0 : Nat) ≤ 3
      decide
    · show ∀ x ∈ [0, len % 256, len / 256 % 256, p1 % 256, p1 / 256 % 256,
        p2 % 256, p2 / 256 % 256, 0], x < 256
      intro x hx
      simp only [List.mem_cons, List.not_mem_nil, or_false] at hx
      rcases hx with rfl | rfl | rfl | rfl | rfl | rfl | rfl | rfl <;> omega
  · refine ⟨_, rfl, goodHeader_spec _ rfl rfl rfl rfl rfl rfl ?_ ?_⟩
    · show (1 : Nat) ≤ 3
      decide
    · show ∀ x ∈ [1, len % 256, len / 256 % 256, p1 % 256, 0, 0, 0, 0],
        x < 256
      intro x hx
      simp only [List.mem_cons, List.not_mem_nil, or_false] at hx
      rcases hx with rfl | rfl | rfl | rfl | rfl | rfl | rfl | rfl <;> omega
  · refine ⟨_, rfl, goodHeader_spec _ rfl rfl rfl rfl rfl rfl ?_ ?_⟩
    · show (2 : Nat) ≤ 3
      decide
    · show ∀ x ∈ [2, len % 256, len / 256 % 256, p1 % 256, 0, 0, 0, 0],
        x < 256
      intro x hx
      simp only [List.mem_cons, List.not_mem_nil, or_false] at hx
      rcases hx with rfl | rfl | rfl | rfl | rfl | rfl | rfl | rfl <;> omega
  · refine ⟨_, rfl, goodHeader_spec _ rfl rfl rfl rfl rfl rfl ?_ ?_⟩
    · show (3 : Nat) ≤ 3
      decide
    · show ∀ x ∈ [3, len % 256, len / 256 % 256, p1 % 256, p1 / 256 % 256,
        0, 0, 0], x < 256
      intro x hx
      simp only [List.mem_cons, List.not_mem_nil, or_false] at hx
      rcases hx with rfl | rfl | rfl | rfl | rfl | rfl | rfl | rfl <;> omega

def hbC5 : Plus3DosHeader :=
  { NewPlus3DosHeader with HeaderData := [0, 100, 0, 10, 0, 90, 0, 0] }

def h2C5 : Plus3DosHeader :=
  { Signature := [81, 76, 85, 83, 51, 68, 79, 83], SoftEOF := 26,
    Issue := 1, Version := 1, FileLength := 0,
    HeaderData := [0, 100, 0, 10, 0, 90, 0, 0],
    Reserved := List.replicate 104 0, Checksum := 65 }

/-- Witness for C5: `SetBasicHeader FileTypeProgram 100 10 90` validates
after `UpdateChecksum`, and corrupting serialized byte 0 (the `P` of the
signature, changed to `Q`) parses to a header that `Validate` rejects. -/
theorem C5_header_checksum_witness :
    ∃ hb, NewPlus3DosHeader.SetBasicHeader FileTypeProgram 100 10 90 =
        .ok hb ∧
      hb.UpdateChecksum.Validate = .ok () ∧
      ∃ h2, Plus3DosHeader.FromBytes
          (hb.UpdateChecksum.toBytes.set 0 81) = .ok h2 ∧
        ∃ e, h2.Validate = .error e := by
  obtain ⟨hb, hsb, hval, hmut⟩ :=
    C5_header_checksum FileTypeProgram 100 10 90 (by decide)
  have h0 : NewPlus3DosHeader.SetBasicHeader FileTypeProgram 100 10 90 =
      .ok hbC5 := by decide
  rw [h0, Except.ok.injEq] at hsb
  subst hsb
  have hcase : Plus3DosHeader.FromBytes
      (hbC5.UpdateChecksum.toBytes.set 0 81) = .ok h2C5 := by decide
  exact ⟨hbC5, h0, hval, h2C5, hcase,
    hmut 0 81 (by decide) (by decide) (by decide) h2C5 hcase⟩

theorem allocSectors_ok_shape (a : List Bool) (s c : Nat) (a2 : List Bool)
    (h : AllocateSectors a s c = (none, a2)) :
    a2 = setRange a s c true ∧ s + c ≤ a.length ∧
      ∀ j, s ≤ j → j < s + c → a.getD j false = false := by
  unfold AllocateSectors at h
  split_ifs at h with h1
  · exact absurd h (by simp)
  · rcases hfa : firstAllocatedInRange a s c with _ | i
    · rw [hfa] at h
      rw [Prod.mk.injEq] at h
      exact ⟨h.2.symm, by omega, firstAllocatedInRange_none a s c hfa⟩
    · rw [hfa] at h
      exact absurd h (by simp)

theorem allocSectors_err_unchanged (a : List Bool) (s c : Nat) (e : GoErr)
    (a2 : List Bool) (h : AllocateSectors a s c = (some e, a2)) : a2 = a := by
  unfold AllocateSectors at h
  split_ifs at h with h1
  · rw [Prod.mk.injEq] at h
    exact h.2.symm
  · rcases hfa : firstAllocatedInRange a s c with _ | i
    · rw [hfa] at h
      exact absurd h (by simp)
    · rw [hfa] at h
      rw [Prod.mk.injEq] at h
      exact h.2.symm

/-- Which sectors the ranges of a block list cover (two sectors per
block, starting at the block map entry). -/
def coveredB (bm : List Nat) (blocks : List Nat) (j : Nat) : Bool :=
  blocks.any (fun b => decide (bm.getD b 0 ≤ j ∧ j < bm.getD b 0 + 2))

theorem coveredB_nil (bm : List Nat) (j : Nat) : coveredB bm [] j = false :=
  rfl

theorem coveredB_cons (bm : List Nat) (b : Nat) (rest : List Nat) (j : Nat) :
    coveredB bm (b :: rest) j =
      (decide (bm.getD b 0 ≤ j ∧ j < bm.getD b 0 + 2) ||
        coveredB bm rest j) := by
  simp [coveredB]

theorem coveredB_append (bm : List Nat) (l1 l2 : List Nat) (j : Nat) :
    coveredB bm (l1 ++ l2) j = (coveredB bm l1 j || coveredB bm l2 j) := by
  simp [coveredB]

theorem coveredB_exists (bm : List Nat) (blocks : List Nat) (j : Nat)
    (h : coveredB bm blocks j = true) :
    ∃ b ∈ blocks, bm.getD b 0 ≤ j ∧ j < bm.getD b 0 + 2 := by
  unfold coveredB at h
  rw [List.any_eq_true] at h
  obtain ⟨b, hb, hd⟩ := h
  exact ⟨b, hb, of_decide_eq_true hd⟩

theorem setRange_getD_len (a : List Bool) (s c : Nat) (v : Bool) :
    (setRange a s c v).length = a.length := setRange_length a s c v

theorem foldSetFalse_length (bm : List Nat) (blocks : List Nat) :
    ∀ a : List Bool,
    (blocks.foldl (fun acc b => setRange acc (bm.getD b 0) 2 false)
      a).length = a.length := by
  induction blocks with
  | nil => intro a; rfl
  | cons b rest ih =>
    intro a
    simp only [List.foldl_cons]
    rw [ih, setRange_length]

theorem foldSetFalse_getD (bm : List Nat) (blocks : List Nat) :
    ∀ (a : List Bool) (j : Nat),
    (blocks.foldl (fun acc b => setRange acc (bm.getD b 0) 2 false)
        a).getD j false =
      if coveredB bm blocks j then false else a.getD j false := by
  induction blocks with
  | nil => intro a j; simp [coveredB_nil]
  | cons b rest ih =>
    intro a j
    simp only [List.foldl_cons]
    rw [ih, coveredB_cons]
    rw [getD_setRange]
    by_cases hr : coveredB bm rest j = true
    · simp [hr]
    · rw [Bool.not_eq_true] at hr
      simp only [hr, Bool.or_false, Bool.false_eq_true, if_false]
      by_cases hin : bm.getD b 0 ≤ j ∧ j < bm.getD b 0 + 2
      · rw [if_pos (show decide (bm.getD b 0 ≤ j ∧ j < bm.getD b 0 + 2) =
            true from decide_eq_true hin)]
        by_cases hj : j < a.length
        · rw [if_pos ⟨hin.1, hin.2, hj⟩]
        · rw [if_neg (by omega), List.getD_eq_default _ _ (by omega)]
      · rw [if_neg (show ¬(decide (bm.getD b 0 ≤ j ∧ j < bm.getD b 0 + 2) =
            true) from by simpa using hin)]
        rw [if_neg (by omega)]

theorem freeBlocks_fold (bm : List Nat) (blocks : List Nat) :
    ∀ (fa : FileAllocation), fa.blockMap = bm →
    (∀ b ∈ blocks, b < bm.length ∧ bm.getD b 0 + 2 ≤ fa.allocation.length) →
    (fa.FreeBlocks blocks).2.allocation =
      blocks.foldl (fun acc b => setRange acc (bm.getD b 0) 2 false)
        fa.allocation ∧
    (fa.FreeBlocks blocks).2.blockMap = bm := by
  induction blocks with
  | nil =>
    intro fa hbm _
    exact ⟨rfl, hbm⟩
  | cons b rest ih =>
    intro fa hbm hv
    obtain ⟨hb1, hb2⟩ := hv b (List.mem_cons_self b rest)
    unfold FileAllocation.FreeBlocks
    rw [hbm]
    rw [if_neg (show ¬(b ≥ bm.length) by omega)]
    rw [show (BlockSize / BytesPerSector : Nat) = 2 from rfl]
    have hfs : FreeSectors fa.allocation (bm.getD b 0) 2 =
        (none, setRange fa.allocation (bm.getD b 0) 2 false) := by
      unfold FreeSectors
      rw [if_neg (show ¬(bm.getD b 0 + 2 > fa.allocation.length) by omega)]
    rw [hfs]
    have hstep := ih
      { allocation := setRange fa.allocation (bm.getD b 0) 2 false,
        blockMap := bm, freeBlocks := fa.freeBlocks.set b true }
      rfl
      (by
        intro b2 hb2m
        obtain ⟨x, y⟩ := hv b2 (List.mem_cons_of_mem b hb2m)
        refine ⟨x, ?_⟩
        show bm.getD b2 0 + 2 ≤
          (setRange fa.allocation (bm.getD b 0) 2 false).length
        rw [setRange_length]
        exact y)
    dsimp only
    simp only [List.foldl_cons]
    exact ⟨hstep.1, hstep.2⟩

theorem findContigAux_bound (l : List Bool) : ∀ (idx consec : Nat)
    (sb : Option Nat) (count s : Nat),
    (∀ s0, sb = some s0 → s0 + consec = idx) →
    findContigAux l idx consec sb count = some s →
    s + count ≤ idx + l.length := by
  induction l with
  | nil =>
    intro idx consec sb count s hinv h
    simp [findContigAux] at h
  | cons free rest ih =>
    intro idx consec sb count s hinv h
    simp only [findContigAux] at h
    cases free with
    | false =>
      simp only [Bool.false_eq_true, if_false] at h
      have := ih (idx + 1) 0 none count s (by intro s0 h0; cases h0) h
      simp only [List.length_cons]
      omega
    | true =>
      simp only [if_true] at h
      by_cases hc : consec + 1 = count
      · rw [if_pos hc] at h
        by_cases h0 : consec = 0
        · rw [if_pos h0] at h
          rw [Option.some.injEq] at h
          subst h
          simp only [List.length_cons]
          omega
        · rw [if_neg h0] at h
          have := hinv s h
          simp only [List.length_cons]
          omega
      · rw [if_neg hc] at h
        have := ih (idx + 1) (consec + 1)
          (if consec = 0 then some idx else sb) count s
          (by
            intro s0 h0
            by_cases h1 : consec = 0
            · rw [if_pos h1] at h0
              rw [Option.some.injEq] at h0
              omega
            · rw [if_neg h1] at h0
              have := hinv s0 h0
              omega) h
        simp only [List.length_cons]
        omega

theorem findFreeAux_bound (l : List Bool) : ∀ (idx b : Nat),
    findFreeAux l idx = some b → b < idx + l.length := by
  induction l with
  | nil =>
    intro idx b h
    simp [findFreeAux] at h
  | cons free rest ih =>
    intro idx b h
    simp only [findFreeAux] at h
    cases free with
    | false =>
      simp only [Bool.false_eq_true, if_false] at h
      have := ih (idx + 1) b h
      simp only [List.length_cons]
      omega
    | true =>
      simp only [if_true, Option.some.injEq] at h
      simp only [List.length_cons]
      omega

theorem rollback_restores (bm : List Nat) (a0 : List Bool)
    (fa1 : FileAllocation) (blocks : List Nat)
    (hbm : fa1.blockMap = bm)
    (hlen : fa1.allocation.length = a0.length)
    (hB : ∀ b ∈ blocks, b < bm.length ∧ bm.getD b 0 + 2 ≤ a0.length)
    (hC : ∀ j, fa1.allocation.getD j false =
      if coveredB bm blocks j then true else a0.getD j false)
    (hD : ∀ b ∈ blocks, ∀ j, bm.getD b 0 ≤ j → j < bm.getD b 0 + 2 →
      a0.getD j false = false) :
    (fa1.FreeBlocks blocks).2.allocation = a0 := by
  obtain ⟨hfold, _⟩ := freeBlocks_fold bm blocks fa1 hbm
    (by
      intro b hb
      obtain ⟨x, y⟩ := hB b hb
      exact ⟨x, by omega⟩)
  rw [hfold]
  apply ext_getD false
  · rw [foldSetFalse_length]
    exact hlen
  · intro j
    rw [foldSetFalse_getD]
    by_cases hc : coveredB bm blocks j = true
    · rw [if_pos hc]
      obtain ⟨b, hbmem, hr1, hr2⟩ := coveredB_exists bm blocks j hc
      exact (hD b hbmem j hr1 hr2).symm
    · rw [Bool.not_eq_true] at hc
      rw [if_neg (by simp [hc])]
      have hj := hC j
      simp only [hc, Bool.false_eq_true, if_false] at hj
      exact hj

theorem contigLoop_restore (bm : List Nat) (a0 : List Bool) :
    ∀ (n : Nat) (fa : FileAllocation) (blocks : List Nat) (block : Nat)
      (e : GoErr) (fa2 : FileAllocation),
    fa.blockMap = bm →
    fa.allocation.length = a0.length →
    block + n ≤ fa.freeBlocks.length →
    fa.freeBlocks.length ≤ bm.length →
    (∀ b ∈ blocks, b < bm.length ∧ bm.getD b 0 + 2 ≤ a0.length) →
    (∀ j, fa.allocation.getD j false =
      if coveredB bm blocks j then true else a0.getD j false) →
    (∀ b ∈ blocks, ∀ j, bm.getD b 0 ≤ j → j < bm.getD b 0 + 2 →
      a0.getD j false = false) →
    contigLoop fa blocks block n = (.error e, fa2) →
    fa2.allocation = a0 := by
  intro n
  induction n with
  | zero =>
    intro fa blocks block e fa2 _ _ _ _ _ _ _ h
    simp [contigLoop] at h
  | succ m ih =>
    intro fa blocks block e fa2 hbm hlen hbound hfb hB hC hD h
    simp only [contigLoop] at h
    rw [hbm, show (BlockSize / BytesPerSector : Nat) = 2 from rfl] at h
    rcases hAS : AllocateSectors fa.allocation (bm.getD block 0) 2
      with ⟨o, a2⟩
    rw [hAS] at h
    rcases o with _ | e2
    · obtain ⟨hset, hrange, hfree⟩ := allocSectors_ok_shape _ _ _ _ hAS
      subst hset
      refine ih
        { allocation := setRange fa.allocation (bm.getD block 0) 2 true,
          blockMap := bm, freeBlocks := fa.freeBlocks.set block false }
        (blocks ++ [block]) (block + 1) e fa2 rfl ?_ ?_ ?_ ?_ ?_ ?_ h
      · show (setRange fa.allocation (bm.getD block 0) 2 true).length =
          a0.length
        rw [setRange_length]
        exact hlen
      · show block + 1 + m ≤ (fa.freeBlocks.set block false).length
        rw [List.length_set]
        omega
      · show (fa.freeBlocks.set block false).length ≤ bm.length
        rw [List.length_set]
        exact hfb
      · intro b hb
        rcases List.mem_append.mp hb with hbm2 | hbm2
        · exact hB b hbm2
        · simp only [List.mem_singleton] at hbm2
          subst hbm2
          constructor
          · omega
          · omega
      · intro j
        show (setRange fa.allocation (bm.getD block 0) 2 true).getD j false =
          _
        rw [getD_setRange, coveredB_append, coveredB_cons, coveredB_nil]
        by_cases hin : bm.getD block 0 ≤ j ∧ j < bm.getD block 0 + 2
        · have hjlen : j < fa.allocation.length := by omega
          rw [if_pos ⟨hin.1, hin.2, hjlen⟩]
          rw [decide_eq_true hin]
          simp
        · rw [if_neg (by omega)]
          rw [decide_eq_false hin]
          simp only [Bool.or_false]
          exact hC j
      · intro b hb
        rcases List.mem_append.mp hb with hbm2 | hbm2
        · exact hD b hbm2
        · simp only [List.mem_singleton] at hbm2
          subst hbm2
          intro j hj1 hj2
          have hv := hfree j hj1 hj2
          have hc := hC j
          rw [hv] at hc
          by_cases hcov : coveredB bm blocks j = true
          · simp [hcov] at hc
          · rw [Bool.not_eq_true] at hcov
            simp only [hcov, Bool.false_eq_true, if_false] at hc
            exact hc.symm
    · have hunch := allocSectors_err_unchanged _ _ _ e2 _ hAS
      subst hunch
      have h2 : ((Except.error e2 : Except GoErr (List Nat)),
          (({ allocation := fa.allocation, blockMap := bm,
              freeBlocks := fa.freeBlocks.set block false } :
            FileAllocation).FreeBlocks blocks).2) =
          (Except.error e, fa2) := h
      rw [Prod.mk.injEq] at h2
      rw [← h2.2]
      exact rollback_restores bm a0 _ blocks rfl hlen hB hC hD

theorem fragLoop_restore (bm : List Nat) (a0 : List Bool) :
    ∀ (n : Nat) (fa : FileAllocation) (blocks : List Nat)
      (e : GoErr) (fa2 : FileAllocation),
    fa.blockMap = bm →
    fa.allocation.length = a0.length →
    fa.freeBlocks.length ≤ bm.length →
    (∀ b ∈ blocks, b < bm.length ∧ bm.getD b 0 + 2 ≤ a0.length) →
    (∀ j, fa.allocation.getD j false =
      if coveredB bm blocks j then true else a0.getD j false) →
    (∀ b ∈ blocks, ∀ j, bm.getD b 0 ≤ j → j < bm.getD b 0 + 2 →
      a0.getD j false = false) →
    fragLoop fa blocks n = (.error e, fa2) →
    fa2.allocation = a0 := by
  intro n
  induction n with
  | zero =>
    intro fa blocks e fa2 _ _ _ _ _ _ h
    simp [fragLoop] at h
  | succ m ih =>
    intro fa blocks e fa2 hbm hlen hfb hB hC hD h
    simp only [fragLoop] at h
    rcases hff : fa.findFreeBlock with _ | block
    · simp only [hff] at h
      have h2 : ((Except.error GoErr.noFreeBlocks : Except GoErr (List Nat)),
          (fa.FreeBlocks blocks).2) = (Except.error e, fa2) := h
      rw [Prod.mk.injEq] at h2
      rw [← h2.2]
      exact rollback_restores bm a0 fa blocks hbm hlen hB hC hD
    · simp only [hff] at h
      have hblock : block < fa.freeBlocks.length := by
        have := findFreeAux_bound fa.freeBlocks 0 block hff
        omega
      rw [hbm, show (BlockSize / BytesPerSector : Nat) = 2 from rfl] at h
      rcases hAS : AllocateSectors fa.allocation (bm.getD block 0) 2
        with ⟨o, a2⟩
      rw [hAS] at h
      rcases o with _ | e2
      · obtain ⟨hset, hrange, hfree⟩ := allocSectors_ok_shape _ _ _ _ hAS
        subst hset
        refine ih
          { allocation := setRange fa.allocation (bm.getD block 0) 2 true,
            blockMap := bm, freeBlocks := fa.freeBlocks.set block false }
          (blocks ++ [block]) e fa2 rfl ?_ ?_ ?_ ?_ ?_ h
        · show (setRange fa.allocation (bm.getD block 0) 2 true).length =
            a0.length
          rw [setRange_length]
          exact hlen
        · show (fa.freeBlocks.set block false).length ≤ bm.length
          rw [List.length_set]
          exact hfb
        · intro b hb
          rcases List.mem_append.mp hb with hbm2 | hbm2
          · exact hB b hbm2
          · simp only [List.mem_singleton] at hbm2
            subst hbm2
            constructor
            · omega
            · omega
        · intro j
          show (setRange fa.allocation (bm.getD block 0) 2 true).getD j
            false = _
          rw [getD_setRange, coveredB_append, coveredB_cons, coveredB_nil]
          by_cases hin : bm.getD block 0 ≤ j ∧ j < bm.getD block 0 + 2
          · have hjlen : j < fa.allocation.length := by omega
            rw [if_pos ⟨hin.1, hin.2, hjlen⟩]
            rw [decide_eq_true hin]
            simp
          · rw [if_neg (by omega)]
            rw [decide_eq_false hin]
            simp only [Bool.or_false]
            exact hC j
        · intro b hb
          rcases List.mem_append.mp hb with hbm2 | hbm2
          · exact hD b hbm2
          · simp only [List.mem_singleton] at hbm2
            subst hbm2
            intro j hj1 hj2
            have hv := hfree j hj1 hj2
            have hc := hC j
            rw [hv] at hc
            by_cases hcov : coveredB bm blocks j = true
            · simp [hcov] at hc
            · rw [Bool.not_eq_true] at hcov
              simp only [hcov, Bool.false_eq_true, if_false] at hc
              exact hc.symm
      · have hunch := allocSectors_err_unchanged _ _ _ e2 _ hAS
        subst hunch
        have h2 : ((Except.error e2 : Except GoErr (List Nat)),
            (({ allocation := fa.allocation, blockMap := bm,
                freeBlocks := fa.freeBlocks.set block false } :
              FileAllocation).FreeBlocks blocks).2) =
            (Except.error e, fa2) := h
        rw [Prod.mk.injEq] at h2
        rw [← h2.2]
        exact rollback_restores bm a0 _ blocks rfl hlen hB hC hD

/-- C4 (amended): `AllocateFileSpace` needs `ceil(size / BlockSize)`
blocks and fails with the size-limit error, leaving the allocator
untouched, when that count exceeds `MaxBlocks`; and after any failed
call the shared sector bitmap is exactly restored (the block free-list,
however, is not — see the counterexample). -/
theorem C4_alloc_rollback (fa : FileAllocation) (size : Nat)
    (hblen : fa.freeBlocks.length ≤ fa.blockMap.length) :
    ((size + BlockSize - 1) / BlockSize > MaxBlocks →
      fa.AllocateFileSpace size =
        (.error (.fileSizeExceedsMax ((size + BlockSize - 1) / BlockSize)),
          fa)) ∧
    (∀ e fa2, fa.AllocateFileSpace size = (.error e, fa2) →
      fa2.allocation = fa.allocation) := by
  constructor
  · intro hgt
    unfold FileAllocation.AllocateFileSpace
    rw [if_pos hgt]
  · intro e fa2 h
    by_cases hgt : (size + BlockSize - 1) / BlockSize > MaxBlocks
    · simp only [FileAllocation.AllocateFileSpace] at h
      rw [if_pos hgt] at h
      rw [Prod.mk.injEq] at h
      rw [← h.2]
    · simp only [FileAllocation.AllocateFileSpace] at h
      rw [if_neg hgt] at h
      rcases hfc : fa.findContiguousBlocks
          ((size + BlockSize - 1) / BlockSize) with _ | s
      · rw [hfc] at h
        exact fragLoop_restore fa.blockMap fa.allocation _ fa [] e fa2 rfl
          rfl hblen (by simp) (by intro j; simp [coveredB_nil]) (by simp) h
      · rw [hfc] at h
        have hbound := findContigAux_bound fa.freeBlocks 0 0 none
          ((size + BlockSize - 1) / BlockSize) s
          (by intro s0 h0; cases h0) hfc
        exact contigLoop_restore fa.blockMap fa.allocation _ fa [] s e fa2
          rfl rfl (by omega) hblen (by simp)
          (by intro j; simp [coveredB_nil]) (by simp) h

/-- An allocator state in which sector 6 — the first sector of block 3,
the first free block — is already taken, so the first one-block file
allocation fails mid-claim and takes the rollback path. -/
def faCex : FileAllocation :=
  { allocation := NewDiskImage.allocation.set 6 true,
    blockMap := NewDiskImage.blockMap,
    freeBlocks := NewDiskImage.freeBlocks }

/-- C4 counterexample: the rollback after a mid-claim sector failure
frees only the blocks of *earlier* iterations; the block being claimed
when the failure hit stays marked used in the free-list (block 3 is
free before the failed call and used after it), even though the sector
bitmap is restored. -/
theorem C4_rollback_counterexample :
    (faCex.AllocateFileSpace 1024).1 =
      .error (.sectorAlreadyAllocated 6) ∧
    faCex.freeBlocks.getD 3 true = true ∧
    ((faCex.AllocateFileSpace 1024).2).freeBlocks.getD 3 true = false ∧
    ((faCex.AllocateFileSpace 1024).2).allocation = faCex.allocation := by
  refine ⟨by decide, by decide, by decide, by decide⟩

/-- Witness for C4: a 257-block request fails with the size-limit error
leaving the allocator untouched, and the failed one-block allocation on
`faCex` leaves the sector bitmap identical. -/
theorem C4_alloc_rollback_witness :
    faCex.freeBlocks.length ≤ faCex.blockMap.length ∧
    faCex.AllocateFileSpace 263168 =
      (.error (.fileSizeExceedsMax 257), faCex) ∧
    ((faCex.AllocateFileSpace 1024).2).allocation = faCex.allocation := by
  have hblen : faCex.freeBlocks.length ≤ faCex.blockMap.length := by decide
  obtain ⟨hA, _⟩ := C4_alloc_rollback faCex 263168 hblen
  obtain ⟨_, hB⟩ := C4_alloc_rollback faCex 1024 hblen
  refine ⟨hblen, ?_, ?_⟩
  · exact hA (by decide)
  · have herr : (faCex.AllocateFileSpace 1024).1 =
        .error (.sectorAlreadyAllocated 6) := by decide
    have hpair : faCex.AllocateFileSpace 1024 =
        (.error (.sectorAlreadyAllocated 6),
          (faCex.AllocateFileSpace 1024).2) := by
      rw [Prod.ext_iff]
      exact ⟨herr, rfl⟩
    exact hB _ _ hpair
